import Mathlib

/-!
Verification of the sustlang interpreter core.

This file gives a shallow embedding of the execution engine of the
sustlang repository: the type/value model (`var/var_type.rs`,
`var/variable.rs`), the variable store (`script/running_script.rs`, with
the earlier revision of the same store kept in `lib.rs` embedded
separately where the two differ), the instruction dispatcher
(`command/command.rs`) restricted to the instruction kinds the claims
exercise, and the function runner (`script/function.rs`).

Modelling conventions:
* Rust `String` values are modelled by their UTF-8 byte sequences
  (`List Nat`).  All literals used below are ASCII.  Byte-wise iteration
  coincides with `chars()` iteration for the bracket/comma tracking in
  `VarType::from_name` because multi-byte UTF-8 units never equal an
  ASCII byte.
* `isize` is modelled as `Int`; the `+` of `AddInt` wraps two's
  complement at 64 bits (release-mode Rust semantics).
* `f64` payloads are carried uninterpreted as their source text bytes;
  no claim exercises float arithmetic, parsing or IEEE equality.
* `HashMap<Variable, Variable>` payloads are modelled as association
  lists in iteration order; `HashMap<String, Variable>` tables (globals
  and locals), over which the engine never iterates, are modelled as
  functions `String → Option Variable`.
* Shared stream handles (`Arc<Mutex<dyn Read/Write>>`) are modelled as
  numeric handles into a stream table held by the store; `Arc::ptr_eq`
  becomes handle equality.
* Rust panics (`unwrap`, out-of-range indexing/slicing) are a distinct
  error outcome `RunErr.panicked`; the unbounded `WHILE` loop and
  function calls are given fuel, with exhaustion reported as
  `RunErr.fuelOut` (an artifact of the embedding; every terminating
  source execution is reproduced by a large enough fuel).
-/

namespace Sust

/-- The error enum of `script/error.rs`. -/
inductive ScriptError where
  | ParseVarError
  | TypeUnknownError
  | CommandUnknownError
  | CommandArgsInvalidError
  | UnknownVarError
  | TypeMismatchError
  | VarNotInitedError
  | StringUTF8Error
  | VarInitedError
  | FunctionUnknownError
  | FileReadError
  | FileWriteError
  | StreamReadError
  | StreamWriteError
deriving DecidableEq, Repr

/-- The recursive type descriptors of `var/var_type.rs`. -/
inductive VarType where
  | Bool
  | String
  | Integer
  | Float
  | Char
  | List (t : VarType)
  | Map (k : VarType) (v : VarType)
  | Optional (t : VarType)
  | InStream
  | OutStream
  | Null
deriving DecidableEq, Repr

/-- UTF-8 encoding of one code point (standard 1-4 byte encoding). -/
def utf8Bytes (c : Nat) : List Nat :=
  if c < 0x80 then [c]
  else if c < 0x800 then [0xC0 + c / 0x40, 0x80 + c % 0x40]
  else if c < 0x10000 then
    [0xE0 + c / 0x1000, 0x80 + c / 0x40 % 0x40, 0x80 + c % 0x40]
  else
    [0xF0 + c / 0x40000, 0x80 + c / 0x1000 % 0x40, 0x80 + c / 0x40 % 0x40,
      0x80 + c % 0x40]

/-- A Rust string as its UTF-8 bytes. -/
def rstr (s : String) : List Nat :=
  (s.data.map (fun c => utf8Bytes c.toNat)).flatten

/-- `bytesStarts p s` is Rust's `s.starts_with(p)` on byte strings. -/
def bytesStarts : List Nat → List Nat → Bool
  | [], _ => true
  | _ :: _, [] => false
  | a :: p, b :: s => a == b && bytesStarts p s

/-- The splitting loop inside the `map[` branch of `VarType::from_name`
(`var/var_type.rs` lines 21-41): each byte is first pushed into the key
accumulator (while `val_stat = 0`) or the value accumulator (while
`val_stat = 1`), then `val_stat` is bumped on a comma at bracket depth 0
and the depth is adjusted on `[` / `]`.  Note that the top-level comma
itself is pushed into the key accumulator before `val_stat` changes.
Bytes 44, 91, 93 are the ASCII codes of the comma and square brackets. -/
def splitGo : List Nat → Int → Nat → List Nat × List Nat
  | [], _, _ => ([], [])
  | c :: rest, tree, stat =>
    let stat' := if c = 44 ∧ tree = 0 then stat + 1 else stat
    let tree' := if c = 91 then tree + 1 else if c = 93 then tree - 1 else tree
    let kv := splitGo rest tree' stat'
    if stat = 0 then (c :: kv.1, kv.2)
    else if stat = 1 then (kv.1, c :: kv.2)
    else kv

theorem splitGo_len (l : List Nat) :
    ∀ tree stat, (splitGo l tree stat).1.length ≤ l.length ∧
      (splitGo l tree stat).2.length ≤ l.length := by
  induction l with
  | nil => intro tree stat; simp [splitGo]
  | cons c rest ih =>
    intro tree stat
    obtain ⟨h1, h2⟩ :=
      ih (if c = 91 then tree + 1 else if c = 93 then tree - 1 else tree)
        (if c = 44 ∧ tree = 0 then stat + 1 else stat)
    simp only [splitGo]
    split
    · exact ⟨by simp <;> omega, by simp <;> omega⟩
    · split
      · exact ⟨by simp <;> omega, by simp <;> omega⟩
      · exact ⟨by simp <;> omega, by simp <;> omega⟩

theorem bytesStarts_len {p s : List Nat} (h : bytesStarts p s = true) :
    p.length ≤ s.length := by
  induction p generalizing s with
  | nil => simp
  | cons a p ih =>
    cases s with
    | nil => simp [bytesStarts] at h
    | cons b s =>
      simp only [bytesStarts, Bool.and_eq_true] at h
      simpa using ih h.2

/-- `VarType::from_name` of `var/var_type.rs` (the module revision, with
the short aliases), on UTF-8 bytes.  The `map[` branch slices the name
at `name[9..name.len()-1]` — the offset of the `optional[` prefix, not
of `map[` — exactly as the source does; for names of byte length below
10 the Rust slice would panic, which the embedding renders as the empty
slice (no claim reaches that corner).  The keyword table lists the
aliases in source order.  The recursion is bounded by the byte length of
the name (each recursive call strictly shrinks the name, by
`bytesStarts_len` and `splitGo_len`), so it is phrased structurally over
a fuel that `fromName` seeds one above that length; the zero-fuel branch
is unreachable from `fromName`. -/
def fromNameB : Nat → List Nat → Except ScriptError VarType
  | 0, _ => .error .TypeUnknownError
  | fuel + 1, name =>
    if bytesStarts (rstr "map[") name then
      match fromNameB fuel (splitGo ((name.take (name.length - 1)).drop 9) 0 0).1 with
      | .error e => .error e
      | .ok key_type =>
        match fromNameB fuel (splitGo ((name.take (name.length - 1)).drop 9) 0 0).2 with
        | .error e => .error e
        | .ok val_type => .ok (.Map key_type val_type)
    else if bytesStarts (rstr "list[") name then
      match fromNameB fuel ((name.take (name.length - 1)).drop 5) with
      | .error e => .error e
      | .ok t => .ok (.List t)
    else if bytesStarts (rstr "optional[") name then
      match fromNameB fuel ((name.take (name.length - 1)).drop 9) with
      | .error e => .error e
      | .ok t => .ok (.Optional t)
    else if name = rstr "bool" ∨ name = rstr "b" then .ok .Bool
    else if name = rstr "string" ∨ name = rstr "str" ∨ name = rstr "s" then
      .ok .String
    else if name = rstr "integer" ∨ name = rstr "int" ∨ name = rstr "i" then
      .ok .Integer
    else if name = rstr "float" ∨ name = rstr "f" then .ok .Float
    else if name = rstr "char" ∨ name = rstr "c" then .ok .Char
    else if name = rstr "in_stream" ∨ name = rstr "in" then .ok .InStream
    else if name = rstr "out_stream" ∨ name = rstr "out" then .ok .OutStream
    else if name = rstr "null" then .ok .Null
    else .error .TypeUnknownError

/-- `VarType::from_name` on a Rust string. -/
def fromName (s : String) : Except ScriptError VarType :=
  fromNameB ((rstr s).length + 1) (rstr s)

/-- An `f64` payload, carried uninterpreted as the bytes of the text it
was parsed from.  Equality on it stands in for Rust's `f64` equality;
the IEEE subtleties (NaN, signed zero, equal values with different
spellings) are outside the embedded fragment — no claim exercises float
payloads. -/
structure F64 where
  bits : List Nat
deriving DecidableEq, Repr

/-- The value enum of `var/variable.rs`.  Each constructor carries the
`VarType` field and the `Option` payload of the source.  `HashMap`
payloads are association lists in iteration order; stream payloads are
numeric handles. -/
inductive Variable where
  | bool (t : VarType) (v : Option Bool)
  | str (t : VarType) (v : Option (List Nat))
  | integer (t : VarType) (v : Option Int)
  | float (t : VarType) (v : Option F64)
  | char (t : VarType) (v : Option Nat)
  | list (t : VarType) (v : Option (List Variable))
  | map (t : VarType) (v : Option (List (Variable × Variable)))
  | optional (t : VarType) (v : Option (Option Variable))
  | inStream (t : VarType) (v : Option Nat)
  | outStream (t : VarType) (v : Option Nat)
  | null (t : VarType)

mutual

/-- `impl PartialEq for Variable` (`var/variable.rs` lines 435-530).
Scalars compare payloads and ignore the type field; `Null` compares the
type fields; streams compare by `Arc::ptr_eq`, i.e. handle identity.
The `Map` arm is the source's pairwise loop over the two maps' native
iteration orders behind a length check — it is *not* order-independent.
In the `Optional` arm the source compares `other_value == value`, so
the operand order swaps, exactly as here. -/
def varEq : Variable → Variable → Bool
  | .bool _ v, .bool _ w => v == w
  | .bool _ _, _ => false
  | .null o, .null t => o == t
  | .null _, _ => false
  | .str _ v, .str _ w => v == w
  | .str _ _, _ => false
  | .integer _ v, .integer _ w => v == w
  | .integer _ _, _ => false
  | .float _ v, .float _ w => v == w
  | .float _ _, _ => false
  | .char _ v, .char _ w => v == w
  | .char _ _, _ => false
  | .list _ (some xs), .list _ (some ys) => varListEq xs ys
  | .list _ none, .list _ none => true
  | .list _ _, _ => false
  | .map _ (some m1), .map _ (some m2) =>
    if m2.length = m1.length then varPairsLoop m1 m2 else false
  | .map _ none, .map _ none => true
  | .map _ _, _ => false
  | .optional _ (some (some x)), .optional _ (some (some y)) => varEq y x
  | .optional _ (some none), .optional _ (some none) => true
  | .optional _ none, .optional _ none => true
  | .optional _ _, _ => false
  | .inStream _ v, .inStream _ w =>
    match v, w with
    | some x, some y => x == y
    | none, none => true
    | _, _ => false
  | .inStream _ _, _ => false
  | .outStream _ v, .outStream _ w =>
    match v, w with
    | some x, some y => x == y
    | none, none => true
    | _, _ => false
  | .outStream _ _, _ => false
termination_by a b => sizeOf a + sizeOf b
decreasing_by all_goals (simp; omega)

/-- `Vec<Variable>` equality: lengths and elements. -/
def varListEq : List Variable → List Variable → Bool
  | [], [] => true
  | [], _ :: _ => false
  | _ :: _, [] => false
  | a :: as, b :: bs => varEq a b && varListEq as bs
termination_by xs ys => sizeOf xs + sizeOf ys
decreasing_by all_goals (simp; omega)

/-- The pairwise comparison loop of the `Map` arm: walk both iterators,
stop (with `true`) when either ends, fail on the first position where
key or value differ. -/
def varPairsLoop : List (Variable × Variable) → List (Variable × Variable) → Bool
  | [], _ => true
  | _, [] => true
  | (k, v) :: vi, (ok, ov) :: ovi =>
    if !(varEq k ok) || !(varEq v ov) then false else varPairsLoop vi ovi
termination_by m1 m2 => sizeOf m1 + sizeOf m2
decreasing_by all_goals (simp; omega)

end

/-- `Variable::get_type` (the type field of each arm). -/
def Variable.get_type : Variable → VarType
  | .bool t _ => t
  | .str t _ => t
  | .integer t _ => t
  | .float t _ => t
  | .char t _ => t
  | .list t _ => t
  | .map t _ => t
  | .optional t _ => t
  | .inStream t _ => t
  | .outStream t _ => t
  | .null t => t

/-- `HashMap::get` on the association-list model: first entry whose key
equals the probe. -/
def mapGet (m : List (Variable × Variable)) (k : Variable) : Option Variable :=
  (m.find? (fun p => varEq p.1 k)).map Prod.snd

/-- `HashMap::insert`: replace the value of an existing key in place,
else append the new entry. -/
def mapInsert (m : List (Variable × Variable)) (k v : Variable) :
    List (Variable × Variable) :=
  if (m.find? (fun p => varEq p.1 k)).isSome then
    m.map (fun p => if varEq p.1 k then (p.1, v) else p)
  else m ++ [(k, v)]

/-- `HashMap::remove`: drop the entry whose key equals the probe. -/
def mapRemove (m : List (Variable × Variable)) (k : Variable) :
    List (Variable × Variable) :=
  m.filter (fun p => !(varEq p.1 k))

def from_bool (v : Option Bool) : Variable := .bool .Bool v

def from_str (v : Option (List Nat)) : Variable := .str .String v

def from_int (v : Option Int) : Variable := .integer .Integer v

def from_float (v : Option F64) : Variable := .float .Float v

def from_char (v : Option Nat) : Variable := .char .Char v

/-- `Variable::from_list` — note the wrapping: the type field becomes
`List(value_type)` whatever `value_type` is. -/
def from_list (v : Option (List Variable)) (value_type : VarType) : Variable :=
  .list (.List value_type) v

def from_optional (v : Option (Option Variable)) (t : VarType) : Variable :=
  .optional (.Optional t) v

def from_in_stream (v : Option Nat) : Variable := .inStream .InStream v

def from_out_stream (v : Option Nat) : Variable := .outStream .OutStream v

def as_bool : Variable → Except ScriptError Bool
  | .bool _ (some b) => .ok b
  | _ => .error .TypeMismatchError

def as_str : Variable → Except ScriptError (List Nat)
  | .str _ (some b) => .ok b
  | _ => .error .TypeMismatchError

def as_int : Variable → Except ScriptError Int
  | .integer _ (some b) => .ok b
  | _ => .error .TypeMismatchError

def as_float : Variable → Except ScriptError F64
  | .float _ (some b) => .ok b
  | _ => .error .TypeMismatchError

def as_char : Variable → Except ScriptError Nat
  | .char _ (some b) => .ok b
  | _ => .error .TypeMismatchError

def as_list : Variable → Except ScriptError (List Variable)
  | .list _ (some b) => .ok b
  | _ => .error .TypeMismatchError

def as_map : Variable → Except ScriptError (List (Variable × Variable))
  | .map _ (some b) => .ok b
  | _ => .error .TypeMismatchError

def as_option : Variable → Except ScriptError (Option Variable)
  | .optional _ (some b) => .ok b
  | _ => .error .TypeMismatchError

def as_in_stream : Variable → Except ScriptError Nat
  | .inStream _ (some b) => .ok b
  | _ => .error .TypeMismatchError

def as_out_stream : Variable → Except ScriptError Nat
  | .outStream _ (some b) => .ok b
  | _ => .error .TypeMismatchError

def get_option_type : Variable → Except ScriptError VarType
  | .optional (.Optional v) _ => .ok v
  | _ => .error .TypeMismatchError

/-- `Variable::empty_var`: scalars get an absent payload, containers a
present empty one.  The source wraps every arm in `Ok`, so the `Result`
never carries an error and the embedding returns the value directly. -/
def empty_var : VarType → Variable
  | .Bool => .bool .Bool none
  | .String => .str .String none
  | .Integer => .integer .Integer none
  | .Float => .float .Float none
  | .Char => .char .Char none
  | .Optional t => .optional (.Optional t) (some none)
  | .List t => .list (.List t) (some [])
  | .Map k v => .map (.Map k v) (some [])
  | .InStream => .inStream .InStream none
  | .OutStream => .outStream .OutStream none
  | .Null => .null .Null

/-- Decimal digit accumulator: `none` on a non-digit byte. -/
def digitsGo : List Nat → Nat → Option Nat
  | [], acc => some acc
  | d :: ds, acc =>
    if 48 ≤ d ∧ d ≤ 57 then digitsGo ds (acc * 10 + (d - 48)) else none

/-- One or more decimal digit bytes, as a number. -/
def digitsVal : List Nat → Option Nat
  | [] => none
  | l => digitsGo l 0

/-- Rust `str::parse::<isize>`: optional sign, digits, 64-bit range. -/
def parseIsize (s : List Nat) : Option Int :=
  match s with
  | 43 :: rest =>
    (digitsVal rest).bind
      (fun n => if n ≤ 2 ^ 63 - 1 then some (Int.ofNat n) else none)
  | 45 :: rest =>
    (digitsVal rest).bind
      (fun n => if n ≤ 2 ^ 63 then some (-(Int.ofNat n)) else none)
  | _ =>
    (digitsVal s).bind
      (fun n => if n ≤ 2 ^ 63 - 1 then some (Int.ofNat n) else none)

/-- Rust `str::parse::<u8>`: optional plus sign, digits, range 0..=255. -/
def parseU8 (s : List Nat) : Option Nat :=
  match s with
  | 43 :: rest => (digitsVal rest).bind (fun n => if n ≤ 255 then some n else none)
  | _ => (digitsVal s).bind (fun n => if n ≤ 255 then some n else none)

/-- Rust `str::parse::<usize>`: optional plus sign, digits, 64-bit range. -/
def parseUsize (s : List Nat) : Option Nat :=
  match s with
  | 43 :: rest => (digitsVal rest).bind (fun n => if n < 2 ^ 64 then some n else none)
  | _ => (digitsVal s).bind (fun n => if n < 2 ^ 64 then some n else none)

/-- A coarse stand-in for Rust's `f64` textual grammar: optional sign,
digits, optionally a dot and more digits.  Exponents, `inf` and `nan`
are outside the embedded fragment; no claim parses a float literal. -/
def f64Shape (s : List Nat) : Bool :=
  let t := match s with
    | 43 :: r => r
    | 45 :: r => r
    | r => r
  let ip := t.takeWhile (fun d => decide (48 ≤ d ∧ d ≤ 57))
  let fp := t.dropWhile (fun d => decide (48 ≤ d ∧ d ≤ 57))
  !ip.isEmpty &&
    (fp.isEmpty ||
      (fp.head? == some 46 && !fp.tail.isEmpty &&
        fp.tail.all (fun d => decide (48 ≤ d ∧ d ≤ 57))))

/-- `Variable::parse_var` (`var/variable.rs` lines 328-392), on the UTF-8
bytes of the text: scalars via textual parsing (booleans also accept
`1`/`0`; `Null` ignores the text), `Optional` accepts a bracketed
`[inner]` (checking the first and last byte, as the source's
`starts_with`/`ends_with` do, and stripping `text[1..len-1]`) or the
literal `none`; every other type is `ParseVarError`. -/
def parseVarB : VarType → List Nat → Except ScriptError Variable
  | .Bool, s =>
    if s = rstr "true" then .ok (from_bool (some true))
    else if s = rstr "false" then .ok (from_bool (some false))
    else if s = rstr "1" then .ok (from_bool (some true))
    else if s = rstr "0" then .ok (from_bool (some false))
    else .error .ParseVarError
  | .Null, _ => .ok (.null .Null)
  | .String, s => .ok (from_str (some s))
  | .Integer, s =>
    match parseIsize s with
    | some i => .ok (from_int (some i))
    | none => .error .ParseVarError
  | .Float, s =>
    if f64Shape s then .ok (from_float (some ⟨s⟩))
    else .error .ParseVarError
  | .Char, s =>
    match parseU8 s with
    | some c => .ok (from_char (some c))
    | none => .error .ParseVarError
  | .Optional t, s =>
    if s.head? = some 91 ∧ s.getLast? = some 93 then
      match parseVarB t (s.drop 1).dropLast with
      | .error e => .error e
      | .ok inner => .ok (.optional (.Optional t) (some (some inner)))
    else if s = rstr "none" then .ok (.optional (.Optional t) (some none))
    else .error .ParseVarError
  | _, _ => .error .ParseVarError

/-- `Variable::parse_var` on a Rust string. -/
def parse_var (t : VarType) (text : String) : Except ScriptError Variable :=
  parseVarB t (rstr text)

/-- A variable table (`HashMap<String, Variable>`).  The engine never
iterates a table, so lookup functions model them faithfully. -/
def Tbl := String → Option Variable

def Tbl.empty : Tbl := fun _ => none

/-- `HashMap::insert` on a table. -/
def Tbl.insert (t : Tbl) (k : String) (v : Variable) : Tbl :=
  fun x => if x = k then some v else t x

/-- `HashMap::remove` on a table. -/
def Tbl.erase (t : Tbl) (k : String) : Tbl :=
  fun x => if x = k then none else t x

/-- Rust's `name.split('.')` on the characters of a name (an empty name
yields one empty part, as in Rust). -/
def splitDotsChars : List Char → List (List Char)
  | [] => [[]]
  | c :: rest =>
    if c = '.' then [] :: splitDotsChars rest
    else
      match splitDotsChars rest with
      | h :: t => (c :: h) :: t
      | [] => [[c]]

def splitDots (s : String) : List String :=
  (splitDotsChars s.data).map (fun l => ⟨l⟩)

/-- The container walk of `RunningScript::get_var`
(`script/running_script.rs` lines 70-98): one iteration per path
segment, carrying `var : Option Variable`.  While `var` is `None` the
segment is looked up in the locals and then the globals — which in the
source can recur mid-path, because a map lookup miss stores `None` back
into `var`.  A list segment parses as `usize` and indexes the list
(`UnknownVar` when out of range); a map segment is parsed as a value of
the *whole map type* field (`Variable::Map(map_type, …)` binds the
full `Map(K,V)` descriptor), which `parse_var` always rejects with
`ParseVarError`; any other shape is `TypeMismatch`. -/
def getVarGo (st : Tbl) (locals : Tbl) :
    Option Variable → List String → Except ScriptError (Option Variable)
  | v, [] => .ok v
  | some v, part :: rest =>
    match v with
    | .list _ (some xs) =>
      match parseUsize (rstr part) with
      | none => .error .ParseVarError
      | some idx =>
        match xs.get? idx with
        | some x => getVarGo st locals (some x) rest
        | none => .error .UnknownVarError
    | .map mt (some m) =>
      match parse_var mt part with
      | .error e => .error e
      | .ok key => getVarGo st locals (mapGet m key) rest
    | _ => .error .TypeMismatchError
  | none, part :: rest => getVarGo st locals ((locals part).or (st part)) rest

/-- `RunningScript::get_var`. -/
def get_var (st : Tbl) (name : String) (locals : Tbl) :
    Except ScriptError Variable :=
  match getVarGo st locals none (splitDots name) with
  | .error e => .error e
  | .ok (some v) => .ok v
  | .ok none => .error .UnknownVarError

/-- One step of a `&mut` borrow chain into a container: a list index or
an already-parsed map key. -/
inductive Step where
  | idx (i : Nat)
  | key (k : Variable)

/-- Read the value a borrow chain points at. -/
def readAt : Variable → List Step → Option Variable
  | v, [] => some v
  | .list _ (some xs), .idx i :: rest => (xs.get? i).bind (fun x => readAt x rest)
  | .map _ (some m), .key k :: rest => (mapGet m k).bind (fun x => readAt x rest)
  | _, _ => none

/-- Apply `f` at the end of a borrow chain (total; the callers only use
it on chains they have just walked, so the fall-through branches are
unreachable). -/
def updateAt : Variable → List Step → (Variable → Variable) → Variable
  | v, [], f => f v
  | .list t (some xs), .idx i :: rest, f =>
    match xs.get? i with
    | some x => .list t (some (xs.set i (updateAt x rest f)))
    | none => .list t (some xs)
  | .map t (some m), .key k :: rest, f =>
    match mapGet m k with
    | some x => .map t (some (mapInsert m k (updateAt x rest f)))
    | none => .map t (some m)
  | v, _, _ => v

/-- The root table a `set_var` borrow lives in, fixed by the promoted
`global` flag. -/
def tblAt (glob : Bool) (G L : Tbl) (k : String) : Option Variable :=
  if glob then G k else L k

/-- Write a new root value back through a `set_var` borrow. -/
def writeBack (glob : Bool) (G L : Tbl) (rk : String) (v : Variable) :
    Tbl × Tbl :=
  if glob then (G.insert rk v, L) else (G, L.insert rk v)

/-- The multi-segment loop of `RunningScript::set_var`
(`script/running_script.rs` lines 204-264).  The source's
`var : Option<&mut Variable>` is represented as an optional borrow
(root key, steps walked); `None` at a middle segment re-reads the root
table at the *current* segment (exactly the source's `None` branch),
and a map lookup miss stores `None` back.  The final segment replaces a
list element in range (`UnknownVar` otherwise) or upserts a map key. -/
def setVarGo (glob : Bool) (value : Variable) (G L : Tbl) :
    Option (String × List Step) → List String →
    Except ScriptError (Tbl × Tbl)
  | b, [part] =>
    match b with
    | none => .error .UnknownVarError
    | some (rk, steps) =>
      match (tblAt glob G L rk).bind (fun rv => readAt rv steps) with
      | none => .error .UnknownVarError
      | some cur =>
        match cur with
        | .list _ (some xs) =>
          match parseUsize (rstr part) with
          | none => .error .ParseVarError
          | some i =>
            if i < xs.length then
              match tblAt glob G L rk with
              | some rv =>
                .ok (writeBack glob G L rk (updateAt rv steps (fun c =>
                  match c with
                  | .list t (some ys) => .list t (some (ys.set i value))
                  | c => c)))
              | none => .error .UnknownVarError
            else .error .UnknownVarError
        | .list _ none => .error .UnknownVarError
        | .map mt (some _) =>
          match parse_var mt part with
          | .error e => .error e
          | .ok key =>
            match tblAt glob G L rk with
            | some rv =>
              .ok (writeBack glob G L rk (updateAt rv steps (fun c =>
                match c with
                | .map t (some m) => .map t (some (mapInsert m key value))
                | c => c)))
            | none => .error .UnknownVarError
        | .map _ none => .error .UnknownVarError
        | _ => .error .TypeMismatchError
  | b, part :: rest =>
    match b with
    | none =>
      setVarGo glob value G L
        ((tblAt glob G L part).map (fun _ => (part, ([] : List Step)))) rest
    | some (rk, steps) =>
      match (tblAt glob G L rk).bind (fun rv => readAt rv steps) with
      | none => .error .UnknownVarError
      | some cur =>
        match cur with
        | .list _ (some xs) =>
          match parseUsize (rstr part) with
          | none => .error .ParseVarError
          | some i =>
            match xs.get? i with
            | some _ => setVarGo glob value G L (some (rk, steps ++ [.idx i])) rest
            | none => .error .UnknownVarError
        | .list _ none => .error .UnknownVarError
        | .map mt (some m) =>
          match parse_var mt part with
          | .error e => .error e
          | .ok key =>
            match mapGet m key with
            | some _ => setVarGo glob value G L (some (rk, steps ++ [.key key])) rest
            | none => setVarGo glob value G L none rest
        | .map _ none => .error .UnknownVarError
        | _ => .error .TypeMismatchError
  | _, [] => .error .UnknownVarError

/-- `RunningScript::set_var` of the module tree
(`script/running_script.rs` lines 180-267).  For a single-segment name
it *unconditionally* inserts: there is no already-declared check for
`init`, no existence check and no descriptor comparison for
assignment.  The write goes to the globals when the passed flag is set,
or when the name already exists globally, is not shadowed locally and
this is not a declaration.  (The source's dead `var_type` binding is
dropped.) -/
def set_var (G : Tbl) (name : String) (value : Variable) (global init : Bool)
    (L : Tbl) : Except ScriptError (Tbl × Tbl) :=
  let parts := splitDots name
  let p0 := parts.headD ""
  let glob := global || ((G p0).isSome && (L p0).isNone && !init)
  if parts.length = 1 then
    .ok (if glob then (G.insert name value, L) else (G, L.insert name value))
  else
    setVarGo glob value G L none parts

/-- `RunningScript::set_var` of the earlier revision kept in `lib.rs`
(lines 1323-1419): it first resolves the name and validates —
`VarInitedError` when declaring a name that already resolves,
`UnknownVarError` when assigning a name that does not, `TypeMismatch`
when assigning a value whose descriptor differs — and only then writes;
its global-promotion condition lacks the `!init` conjunct.  The
multi-segment loop is identical to the module revision's
(`setVarGo`). -/
def lib_set_var (G : Tbl) (name : String) (value : Variable)
    (global init : Bool) (L : Tbl) : Except ScriptError (Tbl × Tbl) :=
  let parts := splitDots name
  let p0 := parts.headD ""
  let proceed : Unit → Except ScriptError (Tbl × Tbl) := fun _ =>
    let glob := global || ((G p0).isSome && (L p0).isNone)
    if parts.length = 1 then
      .ok (if glob then (G.insert name value, L) else (G, L.insert name value))
    else
      setVarGo glob value G L none parts
  match get_var G name L with
  | .ok i =>
    if init then .error .VarInitedError
    else if i.get_type ≠ value.get_type then .error .TypeMismatchError
    else proceed ()
  | .error _ => if !init then .error .UnknownVarError else proceed ()

/-- Write a new root value back through a `drop_var` borrow, into the
table the borrow came from. -/
def dropWrite (fromL : Bool) (G L : Tbl) (rk : String) (v : Variable) :
    Tbl × Tbl :=
  if fromL then (G, L.insert rk v) else (G.insert rk v, L)

/-- The multi-segment loop of `RunningScript::drop_var`
(`script/running_script.rs` lines 116-177).  Unlike `set_var`, the root
lookup tries the locals and then the globals, so the borrow records
which table it came from.  The final segment removes a list element in
range or an existing map entry, `UnknownVar` otherwise. -/
def dropGo (G L : Tbl) :
    Option (Bool × String × List Step) → List String →
    Except ScriptError (Tbl × Tbl)
  | b, [part] =>
    match b with
    | none => .error .UnknownVarError
    | some (fromL, rk, steps) =>
      match (if fromL then L rk else G rk).bind (fun rv => readAt rv steps) with
      | none => .error .UnknownVarError
      | some cur =>
        match cur with
        | .list _ (some xs) =>
          match parseUsize (rstr part) with
          | none => .error .ParseVarError
          | some i =>
            if i < xs.length then
              match (if fromL then L rk else G rk) with
              | some rv =>
                .ok (dropWrite fromL G L rk (updateAt rv steps (fun c =>
                  match c with
                  | .list t (some ys) => .list t (some (ys.eraseIdx i))
                  | c => c)))
              | none => .error .UnknownVarError
            else .error .UnknownVarError
        | .list _ none => .error .UnknownVarError
        | .map mt (some m) =>
          match parse_var mt part with
          | .error e => .error e
          | .ok key =>
            if (mapGet m key).isSome then
              match (if fromL then L rk else G rk) with
              | some rv =>
                .ok (dropWrite fromL G L rk (updateAt rv steps (fun c =>
                  match c with
                  | .map t (some m') => .map t (some (mapRemove m' key))
                  | c => c)))
              | none => .error .UnknownVarError
            else .error .UnknownVarError
        | .map _ none => .error .UnknownVarError
        | _ => .error .TypeMismatchError
  | b, part :: rest =>
    match b with
    | none =>
      match L part with
      | some _ => dropGo G L (some (true, part, [])) rest
      | none =>
        match G part with
        | some _ => dropGo G L (some (false, part, [])) rest
        | none => dropGo G L none rest
    | some (fromL, rk, steps) =>
      match (if fromL then L rk else G rk).bind (fun rv => readAt rv steps) with
      | none => .error .UnknownVarError
      | some cur =>
        match cur with
        | .list _ (some xs) =>
          match parseUsize (rstr part) with
          | none => .error .ParseVarError
          | some i =>
            match xs.get? i with
            | some _ => dropGo G L (some (fromL, rk, steps ++ [.idx i])) rest
            | none => .error .UnknownVarError
        | .list _ none => .error .UnknownVarError
        | .map mt (some m) =>
          match parse_var mt part with
          | .error e => .error e
          | .ok key =>
            match mapGet m key with
            | some _ => dropGo G L (some (fromL, rk, steps ++ [.key key])) rest
            | none => dropGo G L none rest
        | .map _ none => .error .UnknownVarError
        | _ => .error .TypeMismatchError
  | _, [] => .error .UnknownVarError

/-- `RunningScript::drop_var` (`script/running_script.rs` lines
100-178): a single-segment name is removed from the locals if present
there, otherwise from the globals, else `UnknownVar`; a multi-segment
name walks containers like `set_var` and removes the final list element
or map entry. -/
def drop_var (G : Tbl) (name : String) (L : Tbl) :
    Except ScriptError (Tbl × Tbl) :=
  let parts := splitDots name
  if parts.length = 1 then
    match L name with
    | some _ => .ok (G, L.erase name)
    | none =>
      match G name with
      | some _ => .ok (G.erase name, L)
      | none => .error .UnknownVarError
  else
    dropGo G L none parts

/-- The instruction kinds of `command/command_type.rs` that the claims
exercise; the remaining kinds (float arithmetic, string conversions,
container predicates, I/O opening, threads, TCP, …) are outside the
embedded fragment and no claim mentions them. -/
inductive CommandType where
  | InitVar
  | SetVar
  | TempVar
  | CopyVar
  | DropVar
  | HasVar
  | UseFunc
  | Return
  | If
  | While
  | AddInt
  | SubStr
  | SubList
  | Read
  | Equals
  | Not
deriving DecidableEq, Repr

/-- `Command` of `command/command.rs`: a kind, the raw string operands
and the source line. -/
structure Command where
  command_type : CommandType
  args : List String
  line : Nat
deriving DecidableEq, Repr

/-- `Function` of `script/function.rs`.  The source keeps the parameters
in a `HashMap<String, VarType>` and binds arguments in its (arbitrary)
iteration order; the list fixes one such order.  No claim involves a
function of more than one parameter, where the orders could differ. -/
structure Func where
  name : String
  result_type : VarType
  parameters : List (String × VarType)
  commands : List Command

/-- The running script's state reachable through the shared handle: the
global variable table, the contents still readable from each input
stream handle, and the function table. -/
structure Store where
  globals : Tbl
  inStreams : Nat → List Nat
  functions : List Func

/-- An execution outcome that is not a value: a `(ScriptError, Command)`
pair as the source propagates, a Rust panic (`unwrap` of an error,
out-of-range indexing or slicing), or fuel exhaustion (the embedding's
bound on call depth and loop iterations). -/
inductive RunErr where
  | scriptErr (e : ScriptError) (c : Command)
  | panicked
  | fuelOut

/-- `.map_err(|f| (f, self.clone()))` on a store-level result. -/
def liftErr (c : Command) : Except ScriptError α → Except RunErr α
  | .ok a => .ok a
  | .error e => .error (.scriptErr e c)

/-- `RunningScript::get_function`: linear scan of the function table. -/
def get_function (fns : List Func) (name : String) : Except ScriptError Func :=
  match fns.find? (fun f => f.name = name) with
  | some f => .ok f
  | none => .error .FunctionUnknownError

/-- The parameter-binding loop at the head of `Function::execute`:
`locals.insert(k, args[index])` for each parameter in order; `none`
models the panic of `args[index]` when too few arguments come in. -/
def bindArgs : List (String × VarType) → List Variable → Tbl → Option Tbl
  | [], _, acc => some acc
  | (k, _) :: ps, args, acc =>
    match args with
    | [] => none
    | a :: rest => bindArgs ps rest (acc.insert k a)

/-- The temp-variable drop pass of `Function::execute` (lines 62-67):
`drop_var` on every pending name, each failure discarded by
`.pohuy()`. -/
def dropPass (temps : List String) (G L : Tbl) : Tbl × Tbl :=
  match temps with
  | [] => (G, L)
  | t :: rest =>
    match drop_var G t L with
    | .ok gl => dropPass rest gl.1 gl.2
    | .error _ => dropPass rest G L

/-- Rust's join of the remaining operands with single spaces
(`self.args[i..].join(" ")`). -/
def joinSpaces : List String → String
  | [] => ""
  | [s] => s
  | s :: rest => s ++ " " ++ joinSpaces rest

/-- Two's-complement wrap-around of a 64-bit signed addition result
(release-mode Rust `+` on `isize`). -/
def isizeWrap (x : Int) : Int :=
  (x + 2 ^ 63) % 2 ^ 64 - 2 ^ 63

/-- The `as usize` cast of an `isize`. -/
def usizeOf (i : Int) : Nat :=
  (i % 2 ^ 64).toNat

/-- Rust slice `l[a..b]`: `none` models the panic when the range is
invalid.  (For strings the source additionally panics on non-UTF-8-
boundary indices; the test data of every claim is ASCII, where every
index is a boundary.) -/
def slice? (l : List α) (a b : Nat) : Option (List α) :=
  if a ≤ b ∧ b ≤ l.length then some ((l.take b).drop a) else none

/-- `Read::read_exact` into a buffer of the given length: consume
exactly `buf.length` bytes, or fail (the source unwraps that failure
into a panic). -/
def readExact (buf : List Nat) (stream : List Nat) :
    Option (List Nat × List Nat) :=
  if buf.length ≤ stream.length then
    some (stream.take buf.length, stream.drop buf.length)
  else none

/-- `String::from_utf8` validity of a byte sequence. -/
def utf8Valid : List Nat → Bool
  | [] => true
  | b :: rest =>
    if b < 0x80 then utf8Valid rest
    else if 0xC2 ≤ b ∧ b ≤ 0xDF then
      match rest with
      | b1 :: r => if 0x80 ≤ b1 ∧ b1 ≤ 0xBF then utf8Valid r else false
      | [] => false
    else if b = 0xE0 then
      match rest with
      | b1 :: b2 :: r =>
        if (0xA0 ≤ b1 ∧ b1 ≤ 0xBF) ∧ (0x80 ≤ b2 ∧ b2 ≤ 0xBF) then utf8Valid r
        else false
      | _ => false
    else if (0xE1 ≤ b ∧ b ≤ 0xEC) ∨ b = 0xEE ∨ b = 0xEF then
      match rest with
      | b1 :: b2 :: r =>
        if (0x80 ≤ b1 ∧ b1 ≤ 0xBF) ∧ (0x80 ≤ b2 ∧ b2 ≤ 0xBF) then utf8Valid r
        else false
      | _ => false
    else if b = 0xED then
      match rest with
      | b1 :: b2 :: r =>
        if (0x80 ≤ b1 ∧ b1 ≤ 0x9F) ∧ (0x80 ≤ b2 ∧ b2 ≤ 0xBF) then utf8Valid r
        else false
      | _ => false
    else if b = 0xF0 then
      match rest with
      | b1 :: b2 :: b3 :: r =>
        if (0x90 ≤ b1 ∧ b1 ≤ 0xBF) ∧ (0x80 ≤ b2 ∧ b2 ≤ 0xBF) ∧
            (0x80 ≤ b3 ∧ b3 ≤ 0xBF) then utf8Valid r
        else false
      | _ => false
    else if 0xF1 ≤ b ∧ b ≤ 0xF3 then
      match rest with
      | b1 :: b2 :: b3 :: r =>
        if (0x80 ≤ b1 ∧ b1 ≤ 0xBF) ∧ (0x80 ≤ b2 ∧ b2 ≤ 0xBF) ∧
            (0x80 ≤ b3 ∧ b3 ≤ 0xBF) then utf8Valid r
        else false
      | _ => false
    else if b = 0xF4 then
      match rest with
      | b1 :: b2 :: b3 :: r =>
        if (0x80 ≤ b1 ∧ b1 ≤ 0x8F) ∧ (0x80 ≤ b2 ∧ b2 ≤ 0xBF) ∧
            (0x80 ≤ b3 ∧ b3 ≤ 0xBF) then utf8Valid r
        else false
      | _ => false
    else false

/-- Advance a stream handle past the bytes a read consumed. -/
def consumeStream (st : Store) (h : Nat) (rest : List Nat) : Store :=
  {st with inStreams := fun x => if x = h then rest else st.inStreams x}

/-- The capability to invoke a named function: what
`Function::execute` provides to `Command::execute`.  `funcExec` below
ties the knot one fuel level down. -/
def CallFn : Type :=
  Func → String → List Variable → Bool → Store → Except RunErr Store

/-- Resolve a list of operand names (the argument loop of the
`UseFunc` arm). -/
def getVarList (G : Tbl) (L : Tbl) : List String → Except ScriptError (List Variable)
  | [] => .ok []
  | n :: rest =>
    match get_var G n L with
    | .error e => .error e
    | .ok v =>
      match getVarList G L rest with
      | .error e => .error e
      | .ok vs => .ok (v :: vs)

/-- The `While` arm's `loop` (`command/command.rs` lines 732-746):
invoke the zero-argument function with the shared slot `while` as its
result target, then read that slot back from the enclosing frame's
tables and stop when it is false.  The fuel bounds the number of
iterations the embedding can reproduce. -/
def whileLoopWith (callFn : CallFn) (f : Func) (c : Command) (L : Tbl) :
    Nat → Store → Except RunErr Store
  | 0, _ => .error .fuelOut
  | n + 1, st =>
    match callFn f "while" [] false st with
    | .error e => .error e
    | .ok st' =>
      match liftErr c (get_var st'.globals "while" L) with
      | .error e => .error e
      | .ok v =>
        match liftErr c (as_bool v) with
        | .error e => .error e
        | .ok cond => if !cond then .ok st' else whileLoopWith callFn f c L n st'

/-- `Command::execute` (`command/command.rs`), arm by arm for the
embedded instruction kinds.  `callFn` is the capability to run a
function (`Function::execute` one fuel level down), `wf` the iteration
fuel handed to a `While` loop.  Operand fetches `self.args[i]` panic
when absent, as in Rust.  Each arm returns the store, the locals and
the pending temp names (only `TempVar` pushes onto the latter). -/
def execCmdWith (callFn : CallFn) (wf : Nat) (c : Command) (global : Bool)
    (st : Store) (L : Tbl) (temps : List String) :
    Except RunErr (Store × Tbl × List String) :=
  match c.command_type with
  | .InitVar =>
    match c.args[0]?, c.args[1]? with
    | some type_var, some name_var =>
      match liftErr c (fromName type_var) with
      | .error e => .error e
      | .ok t =>
        match liftErr c (set_var st.globals name_var (empty_var t) global true L) with
        | .error e => .error e
        | .ok gl => .ok ({st with globals := gl.1}, gl.2, temps)
    | _, _ => .error .panicked
  | .SetVar =>
    match c.args[0]? with
    | some name_var =>
      match liftErr c (get_var st.globals name_var L) with
      | .error e => .error e
      | .ok v =>
        match liftErr c (parse_var v.get_type (joinSpaces (c.args.drop 1))) with
        | .error e => .error e
        | .ok pv =>
          match liftErr c (set_var st.globals name_var pv global false L) with
          | .error e => .error e
          | .ok gl => .ok ({st with globals := gl.1}, gl.2, temps)
    | none => .error .panicked
  | .TempVar =>
    match c.args[0]?, c.args[1]? with
    | some type_var, some name_var =>
      match liftErr c (fromName type_var) with
      | .error e => .error e
      | .ok t =>
        match liftErr c (parse_var t (joinSpaces (c.args.drop 2))) with
        | .error e => .error e
        | .ok pv =>
          match liftErr c (set_var st.globals name_var pv global true L) with
          | .error e => .error e
          | .ok gl => .ok ({st with globals := gl.1}, gl.2, temps ++ [name_var])
    | _, _ => .error .panicked
  | .CopyVar =>
    match c.args[0]?, c.args[1]? with
    | some source_var, some target_var =>
      match liftErr c (get_var st.globals source_var L) with
      | .error e => .error e
      | .ok v =>
        match liftErr c (set_var st.globals target_var v global false L) with
        | .error e => .error e
        | .ok gl => .ok ({st with globals := gl.1}, gl.2, temps)
    | _, _ => .error .panicked
  | .DropVar =>
    match c.args[0]? with
    | some name_var =>
      match liftErr c (drop_var st.globals name_var L) with
      | .error e => .error e
      | .ok gl => .ok ({st with globals := gl.1}, gl.2, temps)
    | none => .error .panicked
  | .HasVar =>
    match c.args[0]?, c.args[1]? with
    | some name_var, some result_var =>
      match liftErr c
          (set_var st.globals result_var
            (from_bool (some (get_var st.globals name_var L).isOk)) global false L) with
      | .error e => .error e
      | .ok gl => .ok ({st with globals := gl.1}, gl.2, temps)
    | _, _ => .error .panicked
  | .UseFunc =>
    match c.args[0]?, c.args[1]? with
    | some func_name, some result_name =>
      match liftErr c (get_function st.functions func_name) with
      | .error e => .error e
      | .ok f =>
        match liftErr c (getVarList st.globals L (c.args.drop 2)) with
        | .error e => .error e
        | .ok argVals =>
          match callFn f result_name argVals false st with
          | .error e => .error e
          | .ok st' => .ok (st', L, temps)
    | _, _ => .error .panicked
  | .Return => .ok (st, L, temps)
  | .If =>
    match c.args[0]?, c.args[1]? with
    | some bool_var, some func_name =>
      match liftErr c (get_function st.functions func_name) with
      | .error e => .error e
      | .ok f =>
        match liftErr c (get_var st.globals bool_var L) with
        | .error e => .error e
        | .ok v =>
          match liftErr c (as_bool v) with
          | .error e => .error e
          | .ok b =>
            if b then
              match callFn f "null" [] false st with
              | .error e => .error e
              | .ok st' => .ok (st', L, temps)
            else .ok (st, L, temps)
    | _, _ => .error .panicked
  | .While =>
    match c.args[0]? with
    | some func_name =>
      match liftErr c (get_function st.functions func_name) with
      | .error e => .error e
      | .ok f =>
        match liftErr c
            (set_var st.globals "while" (from_bool (some true)) global false L) with
        | .error e => .error e
        | .ok gl =>
          match whileLoopWith callFn f c gl.2 wf {st with globals := gl.1} with
          | .error e => .error e
          | .ok st' => .ok (st', gl.2, temps)
    | none => .error .panicked
  | .AddInt =>
    match c.args[0]?, c.args[1]? with
    | some var_name, some other_name =>
      match liftErr c (get_var st.globals other_name L) with
      | .error e => .error e
      | .ok ov =>
        match liftErr c (as_int ov) with
        | .error e => .error e
        | .ok other_var =>
          match liftErr c (get_var st.globals var_name L) with
          | .error e => .error e
          | .ok vv =>
            match liftErr c (as_int vv) with
            | .error e => .error e
            | .ok var =>
              match liftErr c (set_var st.globals var_name
                  (from_int (some (isizeWrap (var + other_var)))) global false L) with
              | .error e => .error e
              | .ok gl => .ok ({st with globals := gl.1}, gl.2, temps)
    | _, _ => .error .panicked
  | .SubStr =>
    match c.args[0]?, c.args[1]? with
    | some str_var_name, some start_name =>
      -- the source reads `self.args[1]` for the end operand as well
      match liftErr c (get_var st.globals str_var_name L) with
      | .error e => .error e
      | .ok sv =>
        match liftErr c (as_str sv) with
        | .error e => .error e
        | .ok str_var =>
          match liftErr c (get_var st.globals start_name L) with
          | .error e => .error e
          | .ok iv =>
            match liftErr c (as_int iv) with
            | .error e => .error e
            | .ok start_index =>
              match liftErr c (get_var st.globals start_name L) with
              | .error e => .error e
              | .ok ev =>
                match liftErr c (as_int ev) with
                | .error e => .error e
                | .ok end_index =>
                  match slice? str_var (usizeOf start_index) (usizeOf end_index) with
                  | none => .error .panicked
                  | some s =>
                    match liftErr c (set_var st.globals str_var_name
                        (from_str (some s)) global false L) with
                    | .error e => .error e
                    | .ok gl => .ok ({st with globals := gl.1}, gl.2, temps)
    | _, _ => .error .panicked
  | .SubList =>
    match c.args[0]?, c.args[1]? with
    | some list_var_name, some start_name =>
      -- the source reads `self.args[1]` for the end operand as well
      match liftErr c (get_var st.globals list_var_name L) with
      | .error e => .error e
      | .ok list_var =>
        match liftErr c (get_var st.globals start_name L) with
        | .error e => .error e
        | .ok iv =>
          match liftErr c (as_int iv) with
          | .error e => .error e
          | .ok start_index =>
            match liftErr c (get_var st.globals start_name L) with
            | .error e => .error e
            | .ok ev =>
              match liftErr c (as_int ev) with
              | .error e => .error e
              | .ok end_index =>
                match liftErr c (as_list list_var) with
                | .error e => .error e
                | .ok xs =>
                  match slice? xs (usizeOf start_index) (usizeOf end_index) with
                  | none => .error .panicked
                  | some s =>
                    match liftErr c (set_var st.globals list_var_name
                        (from_list (some s) list_var.get_type) global false L) with
                    | .error e => .error e
                    | .ok gl => .ok ({st with globals := gl.1}, gl.2, temps)
    | _, _ => .error .panicked
  | .Read =>
    match c.args[0]?, c.args[1]?, c.args[2]? with
    | some name_var, some size_name, some stream_name =>
      match liftErr c (get_var st.globals name_var L) with
      | .error e => .error e
      | .ok var =>
        match liftErr c (get_var st.globals size_name L) with
        | .error e => .error e
        | .ok sv =>
          match liftErr c (as_int sv) with
          | .error e => .error e
          | .ok size_var =>
            match liftErr c (get_var st.globals stream_name L) with
            | .error e => .error e
            | .ok stv =>
              match liftErr c (as_in_stream stv) with
              | .error e => .error e
              | .ok h =>
                -- `Vec::with_capacity(size)` allocates capacity but has
                -- length 0, so `read_exact` fills a zero-length buffer.
                match readExact [] (st.inStreams h) with
                | none => .error .panicked
                | some br =>
                  match var with
                  | .list .Char _ =>
                    match liftErr c (set_var st.globals name_var
                        (from_list (some (br.1.map (fun b => from_char (some b))))
                          (.List .Char)) global false L) with
                    | .error e => .error e
                    | .ok gl =>
                      .ok ({consumeStream st h br.2 with globals := gl.1}, gl.2, temps)
                  | .str _ _ =>
                    if utf8Valid br.1 then
                      match liftErr c (set_var st.globals name_var
                          (from_str (some br.1)) global false L) with
                      | .error e => .error e
                      | .ok gl =>
                        .ok ({consumeStream st h br.2 with globals := gl.1}, gl.2, temps)
                    else .error (.scriptErr .StringUTF8Error c)
                  | _ => .error (.scriptErr .TypeMismatchError c)
    | _, _, _ => .error .panicked
  | .Equals =>
    match c.args[0]?, c.args[1]?, c.args[2]? with
    | some var_name, some other_name, some result_var =>
      match liftErr c (get_var st.globals var_name L) with
      | .error e => .error e
      | .ok v =>
        match liftErr c (get_var st.globals other_name L) with
        | .error e => .error e
        | .ok ov =>
          match liftErr c (set_var st.globals result_var
              (from_bool (some (varEq v ov))) global false L) with
          | .error e => .error e
          | .ok gl => .ok ({st with globals := gl.1}, gl.2, temps)
    | _, _, _ => .error .panicked
  | .Not =>
    match c.args[0]?, c.args[1]? with
    | some var_name, some result_var =>
      match liftErr c (get_var st.globals var_name L) with
      | .error e => .error e
      | .ok v =>
        match liftErr c (as_bool v) with
        | .error e => .error e
        | .ok b =>
          match liftErr c (set_var st.globals result_var
              (from_bool (some (!b))) global false L) with
          | .error e => .error e
          | .ok gl => .ok ({st with globals := gl.1}, gl.2, temps)
    | _, _ => .error .panicked

/-- The instruction loop of `Function::execute` (`script/function.rs`
lines 51-68): a `Return` kind ends the call (flag `true`) before
executing; after a successful instruction the temp drop pass runs —
skipped via `continue` when the instruction was a `TempVar` — and the
pending set is *not* cleared. -/
def execBodyWith (callFn : CallFn) (wf : Nat) (global : Bool) :
    List Command → Store → Tbl → List String →
    Except RunErr (Bool × Store × Tbl × List String)
  | [], st, L, temps => .ok (false, st, L, temps)
  | cmd :: rest, st, L, temps =>
    if cmd.command_type = .Return then .ok (true, st, L, temps)
    else
      match execCmdWith callFn wf cmd global st L temps with
      | .error e => .error e
      | .ok r =>
        if cmd.command_type = .TempVar then
          execBodyWith callFn wf global rest r.1 r.2.1 r.2.2
        else
          let gl := dropPass r.2.2 r.1.globals r.2.1
          execBodyWith callFn wf global rest {r.1 with globals := gl.1} gl.2 r.2.2

/-- `Function::execute` (`script/function.rs` lines 31-83): bind the
parameters positionally, seed the implicit `result` slot with an empty
value of the declared result type, run the body, and — only when the
body ran through without `Return` and the result target is not the
`null` sentinel — copy the final `result` into the target through
`set_var` (whose failure, and a missing `result` slot, the source
unwraps into a panic).  Structural on the fuel, which bounds the depth
of nested calls; each level hands `funcExec fuel` to the dispatcher as
its call capability and `fuel + 1` as iteration fuel for `While`. -/
def funcExec : Nat → Func → String → List Variable → Bool → Store →
    Except RunErr Store
  | 0, _, _, _, _, _ => .error .fuelOut
  | fuel + 1, f, result_var, args, is_global, st =>
    match bindArgs f.parameters args Tbl.empty with
    | none => .error .panicked
    | some L0 =>
      let L1 := L0.insert "result" (empty_var f.result_type)
      match execBodyWith (funcExec fuel) (fuel + 1) is_global f.commands st L1 [] with
      | .error e => .error e
      | .ok r =>
        if r.1 then .ok r.2.1
        else if result_var ≠ "null" then
          match r.2.2.1 "result" with
          | none => .error .panicked
          | some rv =>
            match set_var r.2.1.globals result_var rv is_global false r.2.2.1 with
            | .error _ => .error .panicked
            | .ok gl => .ok {r.2.1 with globals := gl.1}
        else .ok r.2.1

/-- `RunningScript::run`: execute the `main` function over the whole
body with the `null` result sentinel at global scope. -/
def runScript (fuel : Nat) (main : Func) (st : Store) : Except RunErr Store :=
  funcExec fuel main "null" [] true st

/-! General lemmas about the embedding. -/

/-- A successful instruction leaves the pending temp set unchanged or
pushes exactly one name onto its end. -/
theorem execCmdWith_temps_ext (cf : CallFn) (wf : Nat) (c : Command) (g : Bool)
    (st : Store) (L : Tbl) (temps : List String) (r : Store × Tbl × List String)
    (h : execCmdWith cf wf c g st L temps = .ok r) :
    r.2.2 = temps ∨ ∃ n, r.2.2 = temps ++ [n] := by
  unfold execCmdWith at h
  split at h <;> (repeat' split at h) <;>
    (try (injection h with h; subst h)) <;> (try cases h) <;>
    first
      | (left; rfl)
      | (right; exact ⟨_, rfl⟩)

/-- A successful instruction that is not a `TempVar` leaves the pending
temp set exactly as it was. -/
theorem execCmdWith_temps_eq (cf : CallFn) (wf : Nat) (c : Command) (g : Bool)
    (st : Store) (L : Tbl) (temps : List String) (r : Store × Tbl × List String)
    (hc : c.command_type ≠ .TempVar)
    (h : execCmdWith cf wf c g st L temps = .ok r) :
    r.2.2 = temps := by
  unfold execCmdWith at h
  split at h <;> (repeat' split at h) <;>
    (try (injection h with h; subst h)) <;> (try cases h) <;>
    first
      | rfl
      | (exact absurd (by assumption) hc)

/-- Across a whole body the pending temp set only grows: it is never
cleared after a drop pass. -/
theorem execBodyWith_temps_ext (cf : CallFn) (wf : Nat) (g : Bool) :
    ∀ (cmds : List Command) (st : Store) (L : Tbl) (temps : List String)
      (r : Bool × Store × Tbl × List String),
      execBodyWith cf wf g cmds st L temps = .ok r →
      ∃ ext, r.2.2.2 = temps ++ ext := by
  intro cmds
  induction cmds with
  | nil =>
    intro st L temps r h
    unfold execBodyWith at h
    injection h with h
    subst h
    exact ⟨[], by simp⟩
  | cons cmd rest ih =>
    intro st L temps r h
    unfold execBodyWith at h
    split at h
    · injection h with h
      subst h
      exact ⟨[], by simp⟩
    · split at h
      · cases h
      · rename_i r1 heq
        have hext := execCmdWith_temps_ext cf wf cmd g st L temps r1 heq
        split at h
        · obtain ⟨ext, hx⟩ := ih _ _ _ _ h
          rcases hext with h1 | ⟨n, h1⟩
          · exact ⟨ext, by rw [hx, h1]⟩
          · exact ⟨[n] ++ ext, by rw [hx, h1, List.append_assoc]⟩
        · obtain ⟨ext, hx⟩ := ih _ _ _ _ h
          rcases hext with h1 | ⟨n, h1⟩
          · exact ⟨ext, by rw [hx, h1]⟩
          · exact ⟨[n] ++ ext, by rw [hx, h1, List.append_assoc]⟩

/-- Unfolding equation for `execBodyWith` on an empty body. -/
theorem execBodyWith_nil (cf : CallFn) (wf : Nat) (g : Bool) (st : Store)
    (L : Tbl) (temps : List String) :
    execBodyWith cf wf g [] st L temps = .ok (false, st, L, temps) := rfl

/-- Unfolding equation for `execBodyWith` on a non-empty body. -/
theorem execBodyWith_cons (cf : CallFn) (wf : Nat) (g : Bool) (cmd : Command)
    (rest : List Command) (st : Store) (L : Tbl) (temps : List String) :
    execBodyWith cf wf g (cmd :: rest) st L temps =
      if cmd.command_type = .Return then .ok (true, st, L, temps)
      else
        match execCmdWith cf wf cmd g st L temps with
        | .error e => .error e
        | .ok r =>
          if cmd.command_type = .TempVar then
            execBodyWith cf wf g rest r.1 r.2.1 r.2.2
          else
            execBodyWith cf wf g rest
              {r.1 with globals := (dropPass r.2.2 r.1.globals r.2.1).1}
              (dropPass r.2.2 r.1.globals r.2.1).2 r.2.2 := rfl

/-- `execBodyWith` on a body headed by a `Return`. -/
theorem execBodyWith_cons_ret (cf : CallFn) (wf : Nat) (g : Bool)
    (cmd : Command) (rest : List Command) (st : Store) (L : Tbl)
    (temps : List String) (hr : cmd.command_type = .Return) :
    execBodyWith cf wf g (cmd :: rest) st L temps = .ok (true, st, L, temps) := by
  rw [execBodyWith_cons, if_pos hr]

/-- `execBodyWith` when the head instruction fails. -/
theorem execBodyWith_cons_err (cf : CallFn) (wf : Nat) (g : Bool)
    (cmd : Command) (rest : List Command) (st : Store) (L : Tbl)
    (temps : List String) (e : RunErr) (hr : cmd.command_type ≠ .Return)
    (hc : execCmdWith cf wf cmd g st L temps = .error e) :
    execBodyWith cf wf g (cmd :: rest) st L temps = .error e := by
  rw [execBodyWith_cons, if_neg hr, hc]

/-- `execBodyWith` when the head instruction succeeds: the drop pass
runs unless the head was a `TempVar`. -/
theorem execBodyWith_cons_ok (cf : CallFn) (wf : Nat) (g : Bool)
    (cmd : Command) (rest : List Command) (st : Store) (L : Tbl)
    (temps : List String) (r : Store × Tbl × List String)
    (hr : cmd.command_type ≠ .Return)
    (hc : execCmdWith cf wf cmd g st L temps = .ok r) :
    execBodyWith cf wf g (cmd :: rest) st L temps =
      if cmd.command_type = .TempVar then
        execBodyWith cf wf g rest r.1 r.2.1 r.2.2
      else
        execBodyWith cf wf g rest
          {r.1 with globals := (dropPass r.2.2 r.1.globals r.2.1).1}
          (dropPass r.2.2 r.1.globals r.2.1).2 r.2.2 := by
  rw [execBodyWith_cons, if_neg hr, hc]

/-- Splitting a body at an append: the suffix runs from the prefix's
final state unless the prefix returned early or failed. -/
theorem execBodyWith_append (cf : CallFn) (wf : Nat) (g : Bool) :
    ∀ (xs ys : List Command) (st : Store) (L : Tbl) (temps : List String),
      execBodyWith cf wf g (xs ++ ys) st L temps =
        match execBodyWith cf wf g xs st L temps with
        | .error e => .error e
        | .ok (true, st', L', t') => .ok (true, st', L', t')
        | .ok (false, st', L', t') => execBodyWith cf wf g ys st' L' t' := by
  intro xs
  induction xs with
  | nil => intro ys st L temps; simp [execBodyWith_nil]
  | cons cmd rest ih =>
    intro ys st L temps
    by_cases hr : cmd.command_type = .Return
    · rw [List.cons_append, execBodyWith_cons_ret cf wf g cmd _ st L temps hr,
        execBodyWith_cons_ret cf wf g cmd rest st L temps hr]
    · cases hc : execCmdWith cf wf cmd g st L temps with
      | error e =>
        rw [List.cons_append, execBodyWith_cons_err cf wf g cmd _ st L temps e hr hc,
          execBodyWith_cons_err cf wf g cmd rest st L temps e hr hc]
      | ok r =>
        rw [List.cons_append, execBodyWith_cons_ok cf wf g cmd _ st L temps r hr hc,
          execBodyWith_cons_ok cf wf g cmd rest st L temps r hr hc]
        by_cases ht : cmd.command_type = .TempVar
        · rw [if_pos ht, if_pos ht, ih]
        · rw [if_neg ht, if_neg ht, ih]

/-- An insert at a key known to be present does not enlarge a table's
domain. -/
theorem tbl_insert_dom {T : Tbl} {rk x : String} {v : Variable}
    (hrk : (T rk).isSome = true) (hx : ((T.insert rk v) x).isSome = true) :
    (T x).isSome = true := by
  unfold Tbl.insert at hx
  by_cases hxe : x = rk
  · subst hxe; exact hrk
  · simpa [hxe] using hx

/-- A `drop_var` write-back (an insert at the borrow's root, which is
present) does not enlarge either table's domain. -/
theorem dropWrite_dom {fromL : Bool} {G L : Tbl} {rk x : String} {v : Variable}
    (hrk : ((if fromL then L rk else G rk).isSome) = true) :
    (((dropWrite fromL G L rk v).1 x).isSome = true → (G x).isSome = true) ∧
    (((dropWrite fromL G L rk v).2 x).isSome = true → (L x).isSome = true) := by
  unfold dropWrite
  by_cases hf : fromL <;> simp [hf] at hrk ⊢ <;>
    exact fun hx => tbl_insert_dom hrk hx

/-- The multi-segment drop walk never enlarges a table's domain. -/
theorem dropGo_dom (x : String) :
    ∀ (parts : List String) (b : Option (Bool × String × List Step)) (G L : Tbl)
      (r : Tbl × Tbl), dropGo G L b parts = .ok r →
      ((r.1 x).isSome = true → (G x).isSome = true) ∧
      ((r.2 x).isSome = true → (L x).isSome = true) := by
  intro parts
  induction parts with
  | nil =>
    intro b G L r h
    unfold dropGo at h
    cases h
  | cons part rest ih =>
    intro b G L r h
    cases rest with
    | nil =>
      unfold dropGo at h
      split at h <;> (repeat' split at h) <;> (try cases h) <;>
        (exact dropWrite_dom (by rename_i hsome; rw [hsome]; rfl))
    | cons p2 rest2 =>
      unfold dropGo at h
      split at h <;> (repeat' split at h) <;> (try cases h) <;>
        (exact ih _ _ _ _ h)

/-- An erase never enlarges a table's domain. -/
theorem tbl_erase_dom {T : Tbl} {e x : String}
    (hx : ((T.erase e) x).isSome = true) : (T x).isSome = true := by
  unfold Tbl.erase at hx
  by_cases hxe : x = e
  · simp [hxe] at hx
  · simpa [hxe] using hx

/-- A successful `drop_var` never enlarges a table's domain: a name
absent from a table before the drop is still absent after it. -/
theorem drop_var_dom (x : String) (G L : Tbl) (e : String) (r : Tbl × Tbl)
    (h : drop_var G e L = .ok r) :
    ((r.1 x).isSome = true → (G x).isSome = true) ∧
    ((r.2 x).isSome = true → (L x).isSome = true) := by
  by_cases hp : (splitDots e).length = 1
  · cases hL : L e with
    | some v =>
      have hd : drop_var G e L = .ok (G, L.erase e) := by
        unfold drop_var; simp [hp, hL]
      rw [hd] at h
      cases h
      exact ⟨id, fun hx => tbl_erase_dom hx⟩
    | none =>
      cases hG : G e with
      | some w =>
        have hd : drop_var G e L = .ok (G.erase e, L) := by
          unfold drop_var; simp [hp, hL, hG]
        rw [hd] at h
        cases h
        exact ⟨fun hx => tbl_erase_dom hx, id⟩
      | none =>
        have hd : drop_var G e L = .error .UnknownVarError := by
          unfold drop_var; simp [hp, hL, hG]
        rw [hd] at h
        cases h
  · have hd : drop_var G e L = dropGo G L none (splitDots e) := by
      unfold drop_var; simp [hp]
    rw [hd] at h
    exact dropGo_dom x _ _ _ _ _ h

/-- The whole drop pass never enlarges a table's domain. -/
theorem dropPass_dom (x : String) :
    ∀ (es : List String) (G L : Tbl),
      (((dropPass es G L).1 x).isSome = true → (G x).isSome = true) ∧
      (((dropPass es G L).2 x).isSome = true → (L x).isSome = true) := by
  intro es
  induction es with
  | nil => intro G L; simp [dropPass]
  | cons e rest ih =>
    intro G L
    unfold dropPass
    split
    · rename_i gl heq
      have hd := drop_var_dom x G L e gl heq
      exact ⟨fun hx => hd.1 ((ih gl.1 gl.2).1 hx),
        fun hx => hd.2 ((ih gl.1 gl.2).2 hx)⟩
    · exact ih G L

/-- A name absent from both tables stays absent through a drop pass. -/
theorem dropPass_none (t : String) (es : List String) (G L : Tbl)
    (hG : G t = none) (hL : L t = none) :
    (dropPass es G L).1 t = none ∧ (dropPass es G L).2 t = none := by
  have hd := dropPass_dom t es G L
  constructor
  · cases hh : (dropPass es G L).1 t with
    | none => rfl
    | some v => rw [hG] at hd; simpa using hd.1 (by rw [hh]; rfl)
  · cases hh : (dropPass es G L).2 t with
    | none => rfl
    | some v => rw [hL] at hd; simpa using hd.2 (by rw [hh]; rfl)

/-- A single-segment pending name that is not present in both tables at
once is gone from both after the drop pass processes it: `drop_var`
removes it from whichever table holds it, and later drops never
re-create it. -/
theorem dropPass_removes (t : String) (hs : splitDots t = [t]) :
    ∀ (es : List String) (G L : Tbl), t ∈ es →
      ¬((G t).isSome = true ∧ (L t).isSome = true) →
      (dropPass es G L).1 t = none ∧ (dropPass es G L).2 t = none := by
  intro es
  induction es with
  | nil => intro G L hm; cases hm
  | cons e rest ih =>
    intro G L hm hnb
    rcases List.mem_cons.mp hm with he | hrest
    · subst he
      unfold dropPass
      cases hL : L t with
      | some v =>
        have hG : G t = none := by
          cases hg : G t with
          | none => rfl
          | some w => exact absurd ⟨by rw [hg]; rfl, by rw [hL]; rfl⟩ hnb
        have hd : drop_var G t L = .ok (G, L.erase t) := by
          unfold drop_var
          rw [hs]
          simp [hL]
        rw [hd]
        exact dropPass_none t rest G (L.erase t) hG (by simp [Tbl.erase])
      | none =>
        cases hGt : G t with
        | some v =>
          have hd : drop_var G t L = .ok (G.erase t, L) := by
            unfold drop_var
            rw [hs]
            simp [hL, hGt]
          rw [hd]
          exact dropPass_none t rest (G.erase t) L (by simp [Tbl.erase]) hL
        | none =>
          have hd : drop_var G t L = .error .UnknownVarError := by
            unfold drop_var
            rw [hs]
            simp [hL, hGt]
          rw [hd]
          exact dropPass_none t rest G L hGt hL
    · unfold dropPass
      split
      · rename_i gl heq
        have hd := drop_var_dom t G L e gl heq
        refine ih gl.1 gl.2 hrest (fun hb => hnb ⟨hd.1 hb.1, hd.2 hb.2⟩)
      · exact ih G L hrest hnb

/-- A single-segment name absent from both tables does not resolve. -/
theorem get_var_none (G L : Tbl) (t : String) (hs : splitDots t = [t])
    (hG : G t = none) (hL : L t = none) :
    get_var G t L = .error .UnknownVarError := by
  unfold get_var
  rw [hs]
  simp [getVarGo, hG, hL]

/-- `set_var` on a single-segment name always succeeds, inserting into
the globals or the locals according to the promoted flag. -/
theorem set_var_single (G : Tbl) (name : String) (v : Variable)
    (global init : Bool) (L : Tbl) (hs : splitDots name = [name]) :
    set_var G name v global init L =
      .ok (if global || ((G name).isSome && (L name).isNone && !init)
        then (G.insert name v, L) else (G, L.insert name v)) := by
  unfold set_var
  rw [hs]
  simp

/-- `get_var` on a single-segment name is the locals-then-globals
lookup. -/
theorem get_var_single (G L : Tbl) (t : String) (hs : splitDots t = [t]) :
    get_var G t L =
      match (L t).or (G t) with
      | some v => .ok v
      | none => .error .UnknownVarError := by
  unfold get_var
  rw [hs]
  cases h : (L t).or (G t) <;> simp [getVarGo, h]

/-! The claims. -/

/-- The globals of a store that declared a boolean `x`. -/
def c1G : Tbl := Tbl.empty.insert "x" (from_bool (some true))

/-- C1: the claimed error behaviour of the variable store's write
operation does not hold for the `RunningScript::set_var` of
`script/running_script.rs` (used by the module tree's `INIT_VAR` /
`SET_VAR`): declaring an already-declared single-segment name succeeds
and overwrites, assigning a never-declared name succeeds and creates
it, and assigning a value of a different type descriptor succeeds and
replaces the variable.  The earlier revision of the same function kept
in `lib.rs` performs exactly the claimed checks (`VarInitedError`,
`UnknownVarError`, `TypeMismatchError`), erroring before any write, so
its store is untouched in each failure case. -/
theorem c1_set_var_checks_missing :
    set_var c1G "x" (from_bool (some false)) true true Tbl.empty =
      .ok (c1G.insert "x" (from_bool (some false)), Tbl.empty) ∧
    lib_set_var c1G "x" (from_bool (some false)) true true Tbl.empty =
      .error .VarInitedError ∧
    set_var Tbl.empty "y" (from_bool (some false)) true false Tbl.empty =
      .ok (Tbl.empty.insert "y" (from_bool (some false)), Tbl.empty) ∧
    lib_set_var Tbl.empty "y" (from_bool (some false)) true false Tbl.empty =
      .error .UnknownVarError ∧
    set_var c1G "x" (from_int (some 3)) true false Tbl.empty =
      .ok (c1G.insert "x" (from_int (some 3)), Tbl.empty) ∧
    lib_set_var c1G "x" (from_int (some 3)) true false Tbl.empty =
      .error .TypeMismatchError :=
  ⟨rfl, rfl, rfl, rfl, rfl, rfl⟩

/-- C5: `VarType::from_name` cannot parse any well-formed `map[K,V]`
text.  The `map[` branch slices the body as `name[9..name.len()-1]` —
the offset of `optional[`, not of `map[` — and its splitting loop
pushes the top-level comma into the key accumulator before switching to
the value side.  For `map[string,integer]` the sliced body is
`g,integer`; it splits into key `g,` and value `integer`, and the key
fails with `TypeUnknownError`; the nested example fails the same way,
where the claim requires `Map(String, Integer)` and a recursive
`Map(Map(String, Integer), Integer)`. -/
theorem c5_map_type_parse_fails :
    fromName "map[string,integer]" = .error .TypeUnknownError ∧
    fromName "map[map[string,integer],integer]" = .error .TypeUnknownError ∧
    ((rstr "map[string,integer]").take ((rstr "map[string,integer]").length - 1)).drop 9 =
      rstr "g,integer" ∧
    splitGo (rstr "g,integer") 0 0 = (rstr "g,", rstr "integer") :=
  ⟨rfl, rfl, rfl, rfl⟩

/-- C6: `Variable` equality on present map payloads is the source's
pairwise loop over the two maps' iteration orders, not an
order-independent set-of-pairs comparison: two maps holding exactly the
same two key-value pairs (a permutation, as the `Perm` conjunct
states) compare unequal in both directions as soon as their iteration
orders differ, while the same representation compares equal to
itself. -/
theorem c6_map_eq_order_dependent :
    varEq
      (.map (.Map .Integer .Integer)
        (some [(from_int (some 1), from_int (some 2)),
          (from_int (some 3), from_int (some 4))]))
      (.map (.Map .Integer .Integer)
        (some [(from_int (some 3), from_int (some 4)),
          (from_int (some 1), from_int (some 2))])) = false ∧
    varEq
      (.map (.Map .Integer .Integer)
        (some [(from_int (some 3), from_int (some 4)),
          (from_int (some 1), from_int (some 2))]))
      (.map (.Map .Integer .Integer)
        (some [(from_int (some 1), from_int (some 2)),
          (from_int (some 3), from_int (some 4))])) = false ∧
    List.Perm
      [(from_int (some 1), from_int (some 2)),
        (from_int (some 3), from_int (some 4))]
      [(from_int (some 3), from_int (some 4)),
        (from_int (some 1), from_int (some 2))] ∧
    varEq
      (.map (.Map .Integer .Integer)
        (some [(from_int (some 1), from_int (some 2)),
          (from_int (some 3), from_int (some 4))]))
      (.map (.Map .Integer .Integer)
        (some [(from_int (some 1), from_int (some 2)),
          (from_int (some 3), from_int (some 4))])) = true := by
  refine ⟨?_, ?_, ?_, ?_⟩
  · simp [varEq, varPairsLoop, from_int]
  · simp [varEq, varPairsLoop, from_int]
  · exact List.Perm.swap _ _ _
  · simp [varEq, varPairsLoop, from_int]

/-- The store of the C3 scenario: a string variable `x`, an integer
size `n = 5`, the stream variable `cin` bound to handle 0, and five
bytes (`hello`) readable from that handle. -/
def c3Store : Store :=
  ⟨((Tbl.empty.insert "x" (from_str none)).insert "n"
      (from_int (some 5))).insert "cin" (from_in_stream (some 0)),
    fun h => if h = 0 then rstr "hello" else [], []⟩

def c3ReadCmd : Command := ⟨.Read, ["x", "n", "cin"], 1⟩

/-- C3: a `READ` instruction with size operand 5 over a stream holding
five bytes *succeeds* but stores the empty string, because the buffer
handed to `read_exact` is `Vec::with_capacity(size)` — capacity 5,
length 0 — so zero bytes are read; the stream is left unconsumed.  The
claim requires the target to hold exactly the next 5 bytes
(`hello`). -/
theorem c3_read_fills_zero_bytes :
    (execCmdWith (funcExec 5) 5 c3ReadCmd true c3Store Tbl.empty []).map
        (fun r => (r.1.globals "x", r.1.inStreams 0)) =
      .ok (some (from_str (some [])), rstr "hello") := rfl

/-- The store of the C4 scenario: `s = "hello"`, a list `l` of three
integers, and index variables `a = 1`, `b = 3`. -/
def c4Store : Store :=
  ⟨(((Tbl.empty.insert "s" (from_str (some (rstr "hello")))).insert "l"
      (from_list (some [from_int (some 10), from_int (some 20),
        from_int (some 30)]) .Integer)).insert "a"
      (from_int (some 1))).insert "b" (from_int (some 3)),
    (fun _ => []), []⟩

def c4SubStrCmd : Command := ⟨.SubStr, ["s", "a", "b"], 1⟩

def c4SubListCmd : Command := ⟨.SubList, ["l", "a", "b"], 2⟩

/-- C4: `SUB_STR s a b` and `SUB_LIST l a b` with `a = 1`, `b = 3` on
`s = "hello"` (resp. a three-element list) store back the *empty*
slice, not the half-open slice `[1, 3)` of length 2 the claim
requires: both arms read `self.args[1]` for the end operand as well as
the start operand, so the slice taken is `[start, start)`.  (`SUB_LIST`
additionally re-wraps the variable's full type in another `List`, via
`from_list`.) -/
theorem c4_slice_uses_start_twice :
    (execCmdWith (funcExec 5) 5 c4SubStrCmd true c4Store Tbl.empty []).map
        (fun r => r.1.globals "s") = .ok (some (from_str (some []))) ∧
    (execCmdWith (funcExec 5) 5 c4SubListCmd true c4Store Tbl.empty []).map
        (fun r => r.1.globals "l") =
      .ok (some (from_list (some []) (.List .Integer))) :=
  ⟨rfl, rfl⟩

/-- C9: an early `Return` skips the result-copy step entirely.  First
part: when the body is a prefix that runs through normally followed by
a `Return` (and anything after it), the call ends with *exactly* the
store the prefix produced — whatever the result target name, the
caller's store is untouched by any result write, so the target is
neither updated nor created.  Second part: when the whole body runs
through without an early return and the target is not the `null`
sentinel, the final `result` slot is copied into the target through
`set_var`.  Together: the function's result reaches the caller only
when the body runs to completion without `Return`. -/
theorem c9_return_skips_result_copy :
    ∀ (fuel : Nat) (f : Func) (result_var : String) (args : List Variable)
      (is_global : Bool) (st : Store) (B : Tbl),
      bindArgs f.parameters args Tbl.empty = some B →
      ((∀ (pre : List Command) (retc : Command) (rest : List Command)
          (st₁ : Store) (L₁ : Tbl) (tv₁ : List String),
          f.commands = pre ++ retc :: rest →
          retc.command_type = .Return →
          execBodyWith (funcExec fuel) (fuel + 1) is_global pre st
            (B.insert "result" (empty_var f.result_type)) [] =
            .ok (false, st₁, L₁, tv₁) →
          funcExec (fuel + 1) f result_var args is_global st = .ok st₁) ∧
        (∀ (st₂ : Store) (L₂ : Tbl) (tv₂ : List String) (rv : Variable)
          (G₃ : Tbl) (L₃ : Tbl),
          execBodyWith (funcExec fuel) (fuel + 1) is_global f.commands st
            (B.insert "result" (empty_var f.result_type)) [] =
            .ok (false, st₂, L₂, tv₂) →
          result_var ≠ "null" →
          L₂ "result" = some rv →
          set_var st₂.globals result_var rv is_global false L₂ = .ok (G₃, L₃) →
          funcExec (fuel + 1) f result_var args is_global st =
            .ok {st₂ with globals := G₃})) := by
  intro fuel f result_var args is_global st B hB
  constructor
  · intro pre retc rest st₁ L₁ tv₁ hf hr hpre
    have h1 : execBodyWith (funcExec fuel) (fuel + 1) is_global f.commands st
        (B.insert "result" (empty_var f.result_type)) [] =
        .ok (true, st₁, L₁, tv₁) := by
      rw [hf, execBodyWith_append, hpre]
      exact execBodyWith_cons_ret _ _ _ _ _ _ _ _ hr
    simp [funcExec, hB, h1]
  · intro st₂ L₂ tv₂ rv G₃ L₃ hbody hnv hres hset
    simp [funcExec, hB, hbody, hnv, hres, hset]

/-- A function whose body returns before a `SetVar` that would have
crashed, with a result target that is absent from the caller. -/
def c9Func : Func :=
  ⟨"f", .Bool, [],
    [⟨.InitVar, ["int", "a"], 1⟩, ⟨.Return, [], 2⟩, ⟨.SetVar, ["nope", "1"], 3⟩]⟩

/-- C9 witness: applying the theorem at a concrete call whose body hits
`Return` after one instruction: the caller's store gains only the `a`
the prefix declared — the `out` target is never created. -/
theorem c9_return_skips_result_copy_witness :
    funcExec 3 c9Func "out" [] false
      ⟨Tbl.empty, (fun _ => []), []⟩ =
      .ok ⟨Tbl.empty, (fun _ => []), []⟩ ∧
    (Tbl.empty : Tbl) "out" = none := by
  refine ⟨?_, rfl⟩
  exact ((c9_return_skips_result_copy 2 c9Func "out" [] false
      ⟨Tbl.empty, (fun _ => []), []⟩ Tbl.empty rfl).1
    [⟨.InitVar, ["int", "a"], 1⟩] ⟨.Return, [], 2⟩ [⟨.SetVar, ["nope", "1"], 3⟩]
    _ _ _ rfl rfl rfl)

/-- The C10 scenario body: a temp `t`, then an unrelated instruction
(after which the drop pass removes `t`), then a fresh `INIT_VAR` of the
same name `t`, another unrelated instruction — after which the stale
pending entry removes the *new* `t` again — and finally a `HAS_VAR`
observation. -/
def c10Main : Func :=
  ⟨"main", .Null, [],
    [⟨.TempVar, ["bool", "t", "true"], 1⟩,
     ⟨.InitVar, ["int", "u"], 2⟩,
     ⟨.InitVar, ["bool", "t"], 3⟩,
     ⟨.InitVar, ["int", "v"], 4⟩,
     ⟨.HasVar, ["t", "hv"], 5⟩]⟩

/-- C10: the pending temp-name set is never cleared.  First part: over
any body, a successful run only ever extends the pending set — every
name once pushed stays pending for the rest of the call, so each later
drop pass re-attempts it (failures being discarded by the pass).
Second part, the claimed consequence on a concrete program: after
`TEMP_VAR t` expires, a later `INIT_VAR t` re-declares `t`, and the
next instruction's drop pass silently removes the new variable — the
final `HAS_VAR` observes `t` gone. -/
theorem c10_temp_pending_set_never_cleared :
    (∀ (cf : CallFn) (wf : Nat) (g : Bool) (cmds : List Command) (st : Store)
      (L : Tbl) (temps : List String) (r : Bool × Store × Tbl × List String),
      execBodyWith cf wf g cmds st L temps = .ok r →
      ∃ ext, r.2.2.2 = temps ++ ext) ∧
    (runScript 10 c10Main ⟨Tbl.empty, (fun _ => []), []⟩).map
        (fun st => (st.globals "t", st.globals "hv")) =
      .ok (none, some (from_bool (some false))) :=
  ⟨fun cf wf g cmds st L temps r h => execBodyWith_temps_ext cf wf g cmds st L temps r h,
    rfl⟩

/-- The C2 counterexample body: a temp `t1`, then a second `TEMP_VAR`
(instruction i+1), then at i+2 a `COPY_VAR` reading `t1`. -/
def c2Main : Func :=
  ⟨"main", .Null, [],
    [⟨.TempVar, ["string", "t1", "a"], 1⟩,
     ⟨.TempVar, ["string", "t2", "b"], 2⟩,
     ⟨.CopyVar, ["t1", "w"], 3⟩]⟩

/-- C2 counterexample: the claim says a temp declared at step i becomes
unresolvable (UnknownVar) from instruction i+2 onward.  Here the
instruction at i+1 is itself a `TEMP_VAR`, whose arm skips the
end-of-instruction drop pass, so at i+2 the `COPY_VAR` still resolves
`t1` and the program completes with `w` holding its value. -/
theorem c2_temp_resolvable_at_i_plus_2 :
    (runScript 10 c2Main ⟨Tbl.empty, (fun _ => []), []⟩).map
        (fun st => (st.globals "w", st.globals "t1", st.globals "t2")) =
      .ok (some (from_str (some (rstr "a"))), none, none) := rfl

/-- C2 amended: the drop is tied to the next *non-temp-declaring*
instruction that completes, not unconditionally to instruction i+1.
When a temp `t` (single-segment name) is declared and the very next
instruction is neither `TEMP_VAR` nor `RETURN` and succeeds, then:
`t` is resolvable while that instruction runs; the body execution
continues through the end-of-instruction drop pass; and — provided the
drop pass's single removal suffices (the name is not present in both
tables at once) — resolving `t` afterwards fails with UnknownVar. -/
theorem c2_temp_dropped_after_next_instruction :
    ∀ (cf : CallFn) (wf : Nat) (g : Bool) (tyS t : String) (vs : List String)
      (ln : Nat) (c : Command) (rest : List Command) (st : Store) (L : Tbl)
      (temps : List String) (st' : Store) (L' : Tbl) (temps' : List String)
      (st'' : Store) (L'' : Tbl) (temps'' : List String),
      splitDots t = [t] →
      c.command_type ≠ .TempVar →
      c.command_type ≠ .Return →
      execCmdWith cf wf ⟨.TempVar, tyS :: t :: vs, ln⟩ g st L temps =
        .ok (st', L', temps') →
      execCmdWith cf wf c g st' L' temps' = .ok (st'', L'', temps'') →
      ¬((st''.globals t).isSome = true ∧ (L'' t).isSome = true) →
      (∃ w, get_var st'.globals t L' = .ok w) ∧
      execBodyWith cf wf g (⟨.TempVar, tyS :: t :: vs, ln⟩ :: c :: rest)
          st L temps =
        execBodyWith cf wf g rest
          {st'' with globals := (dropPass temps'' st''.globals L'').1}
          (dropPass temps'' st''.globals L'').2 temps'' ∧
      get_var (dropPass temps'' st''.globals L'').1 t
          (dropPass temps'' st''.globals L'').2 = .error .UnknownVarError := by
  intro cf wf g tyS t vs ln c rest st L temps st' L' temps' st'' L'' temps''
    hs hcTV hcRet h1 h2 hnb
  have htm : temps'' = temps' :=
    execCmdWith_temps_eq cf wf c g st' L' temps' (st'', L'', temps'') hcTV h2
  have h1' := h1
  simp only [execCmdWith, List.getElem?_cons_zero, List.getElem?_cons_succ] at h1
  rcases hfn : fromName tyS with e | ty <;> rw [hfn] at h1
  · simp [liftErr] at h1
  simp only [liftErr] at h1
  rcases hpv : parse_var ty (joinSpaces ((tyS :: t :: vs).drop 2)) with e | pv <;>
    rw [hpv] at h1
  · simp [liftErr] at h1
  simp only [liftErr] at h1
  rw [set_var_single st.globals t pv g true L hs] at h1
  simp [liftErr] at h1
  obtain ⟨hst', hL', htemps'⟩ := h1
  have hmem : t ∈ temps'' := by
    rw [htm, ← htemps']
    simp
  have hdrop := dropPass_removes t hs temps'' st''.globals L'' hmem hnb
  refine ⟨?_, ?_, ?_⟩
  · rw [get_var_single st'.globals L' t hs]
    by_cases hg : g = true <;> simp [hg] at hst' hL' <;> rw [← hst', ← hL']
    · cases hLt : L t <;> simp [Tbl.insert, hLt] <;> exact ⟨_, rfl⟩
    · simp [Tbl.insert]
  · rw [execBodyWith_cons_ok cf wf g ⟨.TempVar, tyS :: t :: vs, ln⟩ (c :: rest)
        st L temps (st', L', temps') (by simp) h1']
    rw [if_pos rfl]
    rw [execBodyWith_cons_ok cf wf g c rest st' L' temps' (st'', L'', temps'')
        hcRet h2]
    rw [if_neg hcTV]
  · exact get_var_none _ _ t hs hdrop.1 hdrop.2

/-- C2 amended witness: the theorem applied to a concrete temp `t1`
followed by an `INIT_VAR`; after that instruction's drop pass, `t1`
resolves to UnknownVar. -/
theorem c2_temp_dropped_after_next_instruction_witness :
    get_var
        (dropPass ["t1"]
          ((Tbl.empty.insert "t1" (from_str (some (rstr "a")))).insert "u"
            (from_int none))
          Tbl.empty).1 "t1"
        (dropPass ["t1"]
          ((Tbl.empty.insert "t1" (from_str (some (rstr "a")))).insert "u"
            (from_int none))
          Tbl.empty).2 = .error .UnknownVarError :=
  (c2_temp_dropped_after_next_instruction (funcExec 1) 1 true "string" "t1"
    ["a"] 1 ⟨.InitVar, ["int", "u"], 2⟩ []
    ⟨Tbl.empty, (fun _ => []), []⟩ Tbl.empty []
    ⟨Tbl.empty.insert "t1" (from_str (some (rstr "a"))), (fun _ => []), []⟩
    Tbl.empty ["t1"]
    ⟨(Tbl.empty.insert "t1" (from_str (some (rstr "a")))).insert "u"
      (from_int none), (fun _ => []), []⟩
    Tbl.empty ["t1"]
    rfl (by simp) (by simp) rfl rfl (by simp [Tbl.insert, Tbl.empty])).2.2

/-- The C7 scenario: declare an integer `x`, set it to 5, add it to
itself. -/
def c7Main : Func :=
  ⟨"main", .Null, [],
    [⟨.InitVar, ["int", "x"], 1⟩,
     ⟨.SetVar, ["x", "5"], 2⟩,
     ⟨.AddInt, ["x", "x"], 3⟩]⟩

/-- C7 amended: `ADD_INT` adds with the `isize` wrap.  First part:
with the target (single-segment, not shadowed by a stale local when
running globally) holding integer `a` and the operand holding integer
`b`, the instruction succeeds and the target afterwards resolves to
`a + b` reduced into the `isize` range — not to the mathematical
`a + b` in general.  Second part: the reduction is the identity
exactly on sums already in range, so the claimed `a + b` result holds
there and only there.  Third and fourth parts: when the target,
respectively the operand, is not an initialized integer, the
instruction fails with `TypeMismatchError`.  Fifth part: the script
`INIT_VAR int x; SET_VAR x 5; ADD_INT x x` ends with `x == 10`. -/
theorem c7_add_int_adds :
    (∀ (cf : CallFn) (wf : Nat) (x y : String) (ln : Nat) (g : Bool)
      (st : Store) (L : Tbl) (temps : List String) (vx vy : Variable)
      (a b : Int),
      splitDots x = [x] →
      get_var st.globals y L = .ok vy → as_int vy = .ok b →
      get_var st.globals x L = .ok vx → as_int vx = .ok a →
      (L x = none ∨ g = false) →
      ∃ st' L', execCmdWith cf wf ⟨.AddInt, [x, y], ln⟩ g st L temps =
          .ok (st', L', temps) ∧
        get_var st'.globals x L' = .ok (from_int (some (isizeWrap (a + b))))) ∧
    (∀ s : Int, (isizeWrap s = s ↔ -(2 ^ 63) ≤ s ∧ s < 2 ^ 63)) ∧
    (∀ (cf : CallFn) (wf : Nat) (x y : String) (ln : Nat) (g : Bool)
      (st : Store) (L : Tbl) (temps : List String) (vx vy : Variable)
      (b : Int),
      get_var st.globals y L = .ok vy → as_int vy = .ok b →
      get_var st.globals x L = .ok vx →
      as_int vx = .error .TypeMismatchError →
      execCmdWith cf wf ⟨.AddInt, [x, y], ln⟩ g st L temps =
        .error (.scriptErr .TypeMismatchError ⟨.AddInt, [x, y], ln⟩)) ∧
    (∀ (cf : CallFn) (wf : Nat) (x y : String) (ln : Nat) (g : Bool)
      (st : Store) (L : Tbl) (temps : List String) (vy : Variable),
      get_var st.globals y L = .ok vy →
      as_int vy = .error .TypeMismatchError →
      execCmdWith cf wf ⟨.AddInt, [x, y], ln⟩ g st L temps =
        .error (.scriptErr .TypeMismatchError ⟨.AddInt, [x, y], ln⟩)) ∧
    (runScript 10 c7Main ⟨Tbl.empty, (fun _ => []), []⟩).map
        (fun st => st.globals "x") = .ok (some (from_int (some 10))) := by
  refine ⟨?_, ?_, ?_, ?_, rfl⟩
  · intro cf wf x y ln g st L temps vx vy a b hx hyv hyb hxv hxa hroute
    have hsv := set_var_single st.globals x (from_int (some (isizeWrap (a + b))))
      g false L hx
    have hexec : execCmdWith cf wf ⟨.AddInt, [x, y], ln⟩ g st L temps =
        .ok ({st with globals :=
            (if g || ((st.globals x).isSome && (L x).isNone && !false)
              then (st.globals.insert x (from_int (some (isizeWrap (a + b)))), L)
              else (st.globals,
                L.insert x (from_int (some (isizeWrap (a + b)))))).1},
          (if g || ((st.globals x).isSome && (L x).isNone && !false)
            then (st.globals.insert x (from_int (some (isizeWrap (a + b)))), L)
            else (st.globals,
              L.insert x (from_int (some (isizeWrap (a + b)))))).2,
          temps) := by
      simp only [execCmdWith, List.getElem?_cons_zero, List.getElem?_cons_succ]
      rw [hyv]
      simp only [liftErr]
      rw [hyb]
      simp only [liftErr]
      rw [hxv]
      simp only [liftErr]
      rw [hxa]
      simp only [liftErr]
      rw [hsv]
    refine ⟨_, _, hexec, ?_⟩
    rw [get_var_single _ _ x hx]
    rcases hroute with hLx | hg
    · by_cases hgG : (g = true ∨ (st.globals x).isSome = true) <;>
        simp [hgG, Tbl.insert, hLx]
    · subst hg
      cases hLx : L x with
      | some w => simp [hLx, Tbl.insert]
      | none =>
        by_cases hGx : (st.globals x).isSome = true <;>
          simp [hLx, hGx, Tbl.insert]
  · intro s
    unfold isizeWrap
    omega
  · intro cf wf x y ln g st L temps vx vy b hyv hyb hxv hxa
    simp only [execCmdWith, List.getElem?_cons_zero, List.getElem?_cons_succ]
    rw [hyv]
    simp only [liftErr]
    rw [hyb]
    simp only [liftErr]
    rw [hxv]
    simp only [liftErr]
    rw [hxa]
  · intro cf wf x y ln g st L temps vy hyv hyb
    simp only [execCmdWith, List.getElem?_cons_zero, List.getElem?_cons_succ]
    rw [hyv]
    simp only [liftErr]
    rw [hyb]

/-- C7 witness: the first part applied to `ADD_INT x x` on a store
where `x` holds 3: the instruction succeeds and `x` resolves to 6. -/
theorem c7_add_int_adds_witness :
    ∃ st' L', execCmdWith (funcExec 1) 1 ⟨.AddInt, ["x", "x"], 3⟩ false
        ⟨Tbl.empty.insert "x" (from_int (some 3)), (fun _ => []), []⟩
        Tbl.empty [] = .ok (st', L', []) ∧
      get_var st'.globals "x" L' = .ok (from_int (some 6)) :=
  c7_add_int_adds.1 (funcExec 1) 1 "x" "x" 3 false
    ⟨Tbl.empty.insert "x" (from_int (some 3)), (fun _ => []), []⟩
    Tbl.empty [] (from_int (some 3)) (from_int (some 3)) 3 3
    rfl rfl rfl rfl rfl (Or.inl rfl)

/-- The C7 overflow counterexample store: both operands hold
`2 ^ 62`. -/
def c7OvStore : Store :=
  ⟨(Tbl.empty.insert "x" (from_int (some (2 ^ 62)))).insert "y"
    (from_int (some (2 ^ 62))), (fun _ => []), []⟩

/-- C7 counterexample: the claim promises the target ends holding the
mathematical `a + b` for all integers — but the source adds `isize`
values, which wrap.  At `a = b = 2 ^ 62` (both storable, each within
the `isize` range) the instruction succeeds and the target ends
holding `-(2 ^ 63)`, which is not `a + b = 2 ^ 63`. -/
theorem c7_add_int_overflow_wraps :
    (execCmdWith (funcExec 1) 1 ⟨.AddInt, ["x", "y"], 1⟩ true c7OvStore
        Tbl.empty []).map (fun r => r.1.globals "x") =
      .ok (some (from_int (some (-(2 ^ 63))))) ∧
    ((2 : Int) ^ 62 + 2 ^ 62 ≠ -(2 ^ 63)) :=
  ⟨rfl, by decide⟩

/-- The C8 counterexample callee: drops a global marker, then reports
false through its `result` slot. -/
def c8NestedPred : Func :=
  ⟨"g2", .Bool, [],
    [⟨.DropVar, ["marker"], 10⟩, ⟨.SetVar, ["result", "false"], 11⟩]⟩

/-- The C8 counterexample wrapper: a `WHILE g2` sitting inside a called
function rather than at top level. -/
def c8NestedWrap : Func := ⟨"w", .Null, [], [⟨.While, ["g2"], 20⟩]⟩

/-- The C8 counterexample main body. -/
def c8NestedMain : Func :=
  ⟨"main", .Null, [],
    [⟨.InitVar, ["bool", "marker"], 1⟩, ⟨.UseFunc, ["w", "null"], 2⟩]⟩

/-- The C8 predicate used for the amended theorem: decrement `cnt`,
increment `up` (one tick per invocation), then report `cnt ≠ 0`
through the `result` slot. -/
def c8PredFunc : Func :=
  ⟨"p", .Bool, [],
    [⟨.AddInt, ["cnt", "mOne"], 30⟩,
     ⟨.AddInt, ["up", "one"], 31⟩,
     ⟨.Equals, ["cnt", "zero", "result"], 32⟩,
     ⟨.Not, ["result", "result"], 33⟩]⟩

/-- The global table family the C8 loop walks through: a countdown
`cnt`, an invocation counter `up`, the constants `zero`/`mOne`/`one`,
and the shared `while` slot. -/
def c8G (k u : Int) (w : Bool) : Tbl := fun s =>
  if s = "cnt" then some (from_int (some k))
  else if s = "up" then some (from_int (some u))
  else if s = "zero" then some (from_int (some 0))
  else if s = "mOne" then some (from_int (some (-1)))
  else if s = "one" then some (from_int (some 1))
  else if s = "while" then some (from_bool (some w))
  else none

theorem c8G_set_while (k u : Int) (w b : Bool) :
    (c8G k u w).insert "while" (from_bool (some b)) = c8G k u b := by
  funext s
  simp only [Tbl.insert, c8G]
  split_ifs <;> simp_all

theorem c8G_step (k u k' u' : Int) (w b : Bool) :
    (((c8G k u w).insert "cnt" (from_int (some k'))).insert "up"
        (from_int (some u'))).insert "while" (from_bool (some b)) =
      c8G k' u' b := by
  funext s
  simp only [Tbl.insert, c8G]
  split_ifs <;> simp_all

theorem option_some_beq {α : Type} [BEq α] (a b : α) :
    ((some a : Option α) == some b) = (a == b) := rfl

/-- One invocation of the C8 predicate: `cnt` goes down one, `up` goes
up one, and the shared `while` slot receives `cnt - 1 ≠ 0`. -/
theorem c8_pred_invoke (m : Nat) (sIn : Nat → List Nat) (fns : List Func)
    (k u : Int) (w : Bool)
    (hk1 : -(2 ^ 62) ≤ k) (hk2 : k ≤ 2 ^ 62)
    (hu1 : -(2 ^ 62) ≤ u) (hu2 : u ≤ 2 ^ 62) :
    funcExec (m + 1) c8PredFunc "while" [] false ⟨c8G k u w, sIn, fns⟩ =
      .ok ⟨c8G (k - 1) (u + 1) (!(k - 1 == 0)), sIn, fns⟩ := by
  have e1 : isizeWrap (k + -1) = k - 1 := by
    unfold isizeWrap
    omega
  have e2 : isizeWrap (u + 1) = u + 1 := by
    unfold isizeWrap
    omega
  have s1 : splitDots "cnt" = ["cnt"] := rfl
  have s2 : splitDots "up" = ["up"] := rfl
  have s3 : splitDots "zero" = ["zero"] := rfl
  have s4 : splitDots "mOne" = ["mOne"] := rfl
  have s5 : splitDots "one" = ["one"] := rfl
  have s6 : splitDots "result" = ["result"] := rfl
  have s7 : splitDots "while" = ["while"] := rfl
  rw [← c8G_step k u (k - 1) (u + 1) w (!(k - 1 == 0))]
  simp only [funcExec, c8PredFunc, bindArgs, execBodyWith, execCmdWith,
    List.getElem?_cons_zero, List.getElem?_cons_succ, liftErr, dropPass,
    get_var, getVarGo, set_var, s1, s2, s3, s4, s5, s6, s7, varEq,
    option_some_beq, as_int, as_bool, from_int, from_bool, empty_var,
    Tbl.insert, Tbl.empty, e1, e2, c8G]
  simp [dropPass, getVarGo, Tbl.insert, Tbl.empty, c8G, liftErr, as_int,
    as_bool, from_int, from_bool, varEq, option_some_beq, set_var, s1, s2,
    s3, s4, s5, s6, s7, e1, e2, execBodyWith, execCmdWith, empty_var,
    List.getElem?_cons_zero, List.getElem?_cons_succ]

/-- The C8 loop: starting from `cnt = j + 1`, the predicate is invoked
exactly `j + 1` times (each adds one to `up`) and the loop then stops
with the shared slot false. -/
theorem c8_loop (m : Nat) (c : Command) (L : Tbl) (hL : L "while" = none) :
    ∀ (j fuel : Nat) (u : Int) (w : Bool) (sIn : Nat → List Nat),
      j + 1 ≤ fuel →
      (j : Int) + 1 ≤ 2 ^ 62 → -(2 ^ 62) ≤ u → u + (j : Int) + 1 ≤ 2 ^ 62 →
      whileLoopWith (funcExec (m + 1)) c8PredFunc c L fuel
          ⟨c8G ((j : Int) + 1) u w, sIn, [c8PredFunc]⟩ =
        .ok ⟨c8G 0 (u + ((j : Int) + 1)) false, sIn, [c8PredFunc]⟩ := by
  intro j
  induction j with
  | zero =>
    intro fuel u w sIn hf h1 h2 h3
    cases fuel with
    | zero => omega
    | succ n =>
      simp only [Nat.cast_zero]
      simp only [whileLoopWith]
      rw [c8_pred_invoke m sIn [c8PredFunc] ((0 : Int) + 1) u w
        (by omega) (by omega) (by omega) (by omega)]
      simp [get_var_single (c8G 0 (u + 1) false) L "while" rfl, hL,
        liftErr, c8G, as_bool, from_bool]
  | succ i ih =>
    intro fuel u w sIn hf h1 h2 h3
    cases fuel with
    | zero => omega
    | succ n =>
      have hcast : ((i + 1 : Nat) : Int) + 1 = ((i : Int) + 1) + 1 := by
        push_cast
        ring
      rw [hcast]
      simp only [whileLoopWith]
      rw [c8_pred_invoke m sIn [c8PredFunc] (((i : Int) + 1) + 1) u w
        (by push_cast at h1 ⊢ <;> omega) (by push_cast at h1 ⊢ <;> omega)
        (by omega) (by push_cast at h1 h3 ⊢ <;> omega)]
      have hb : ((((i : Int) + 1) + 1 - 1) == 0) = false := by
        rw [beq_eq_false_iff_ne]
        have := Int.natCast_nonneg i
        omega
      rw [hb]
      have harith : (((i : Int) + 1) + 1 - 1) = ((i : Int) + 1) := by ring
      rw [harith]
      simp [get_var_single (c8G ((i : Int) + 1) (u + 1) true) L "while" rfl,
        hL, liftErr, c8G, as_bool, from_bool]
      have hfin : n ≥ i + 1 := by omega
      rw [ih n (u + 1) true sIn hfin (by push_cast at h1 ⊢ <;> omega)
        (by omega) (by push_cast at h3 ⊢ <;> omega)]
      have harith2 : (u + 1) + ((i : Int) + 1) = u + (((i : Int) + 1) + 1) := by
        ring
      rw [harith2]

/-- C8 counterexample: the claim says the loop body runs exactly once
when the predicate reports false on the first invocation.  Here the
`WHILE` sits inside a called function: the shared slot lives in the
wrapper's locals, but each invocation's result is captured into the
callee's own (discarded) locals, so the slot never turns false and the
body runs a second time — observable because the second invocation's
`DROP_VAR marker` fails with UnknownVar on the already-dropped
marker. -/
theorem c8_nested_while_reinvokes :
    runScript 10 c8NestedMain
        ⟨Tbl.empty, (fun _ => []), [c8NestedPred, c8NestedWrap]⟩ =
      .error (.scriptErr .UnknownVarError ⟨.DropVar, ["marker"], 10⟩) := rfl

/-- C8 amended: the claimed protocol does hold for a `WHILE` executing
at global scope over a slot that actually lives in the globals.  With
`cnt = j + 1` (so the predicate reports true on the first `j`
invocations and false on invocation `j + 1`): the instruction sets the
shared `while` slot to true, invokes the predicate exactly `j + 1`
times — witnessed by `up` rising by exactly `j + 1` — and stops
normally once the slot reads false. -/
theorem c8_while_protocol_at_global_scope :
    ∀ (m j wf ln : Nat) (u : Int) (w : Bool) (sIn : Nat → List Nat)
      (L : Tbl) (temps : List String),
      L "while" = none →
      j + 1 ≤ wf →
      (j : Int) + 1 ≤ 2 ^ 62 → -(2 ^ 62) ≤ u → u + (j : Int) + 1 ≤ 2 ^ 62 →
      execCmdWith (funcExec (m + 1)) wf ⟨.While, ["p"], ln⟩ true
          ⟨c8G ((j : Int) + 1) u w, sIn, [c8PredFunc]⟩ L temps =
        .ok (⟨c8G 0 (u + ((j : Int) + 1)) false, sIn, [c8PredFunc]⟩, L,
          temps) := by
  intro m j wf ln u w sIn L temps hL hf h1 h2 h3
  simp only [execCmdWith, List.getElem?_cons_zero]
  rw [show get_function [c8PredFunc] "p" = .ok c8PredFunc from rfl]
  simp only [liftErr]
  rw [set_var_single (c8G ((j : Int) + 1) u w) "while" (from_bool (some true))
    true false L rfl]
  simp only [liftErr, Bool.true_or, if_pos]
  rw [c8G_set_while]
  rw [c8_loop m ⟨.While, ["p"], ln⟩ L hL j wf u true sIn hf h1 h2 h3]

/-- C8 amended witness: the theorem at `cnt = 2`, `up = 0`: the loop
terminates with the counter showing exactly two invocations and the
shared slot false. -/
theorem c8_while_protocol_at_global_scope_witness :
    execCmdWith (funcExec 1) 3 ⟨.While, ["p"], 20⟩ true
        ⟨c8G 2 0 false, (fun _ => []), [c8PredFunc]⟩ Tbl.empty [] =
      .ok (⟨c8G 0 2 false, (fun _ => []), [c8PredFunc]⟩, Tbl.empty, []) :=
  c8_while_protocol_at_global_scope 0 1 3 20 0 false (fun _ => [])
    Tbl.empty [] rfl (by omega) (by decide) (by decide) (by decide)

/-- C10 witness: the first part applied to a one-instruction body that
declares a temp from an empty pending set: the resulting pending set is
an extension of the empty one (namely `["t"]`). -/
theorem c10_temp_pending_set_never_cleared_witness :
    ∃ ext, (["t"] : List String) = [] ++ ext :=
  c10_temp_pending_set_never_cleared.1 (funcExec 1) 1 true
    [⟨.TempVar, ["bool", "t", "true"], 1⟩] ⟨Tbl.empty, (fun _ => []), []⟩
    Tbl.empty [] _ rfl

end Sust
